import Mathlib

/-!
Verification of the mapea-back listing-ingestion pipeline.

This file shallowly embeds the Python code of `app/scraper.py`,
`app/sources/inmoup.py` and `app/sources/mendozaprop.py` in Lean 4 and
settles a list of specification claims against it.

Python dynamic values are modelled by the inductive `PyVal`; Python
truthiness, `dict.get`, `str()`, `str.startswith`, `in` (substring test)
and `str.lower()` are modelled explicitly.  Network and browser effects
are modelled by explicit oracle functions describing the responses of
the outside world; exceptions are modelled with `Option`/`Except`
(`none`/`.error` = the corresponding Python code raised).  Python
numbers are modelled as `Int` (only their truthiness and `str()` image
are consumed by the code under study).
-/

/-- A Python runtime value, as far as the scrapers consume them:
`None`, booleans, numbers (modelled as `Int`), strings, lists and
string-keyed dicts (association lists, first binding wins on lookup,
as Python dict keys are unique). -/
inductive PyVal where
  | vnone : PyVal
  | vbool : Bool → PyVal
  | vnum : Int → PyVal
  | vstr : String → PyVal
  | vlist : List PyVal → PyVal
  | vdict : List (String × PyVal) → PyVal
deriving Repr

namespace PyVal

mutual

/-- Python `==` on values (structural equality; the scrapers only ever
compare cache keys, which are address values). -/
def pyBeq : PyVal → PyVal → Bool
  | vnone, vnone => true
  | vbool a, vbool b => a == b
  | vnum a, vnum b => a == b
  | vstr a, vstr b => a == b
  | vlist a, vlist b => pyBeqList a b
  | vdict a, vdict b => pyBeqDict a b
  | _, _ => false

def pyBeqList : List PyVal → List PyVal → Bool
  | [], [] => true
  | x :: xs, y :: ys => pyBeq x y && pyBeqList xs ys
  | _, _ => false

def pyBeqDict : List (String × PyVal) → List (String × PyVal) → Bool
  | [], [] => true
  | (k1, v1) :: xs, (k2, v2) :: ys => k1 == k2 && pyBeq v1 v2 && pyBeqDict xs ys
  | _, _ => false

end

instance : BEq PyVal := ⟨pyBeq⟩

/-- Python truthiness (`bool(v)`): `None`, `False`, `0`, `""`, `[]`, `{}`
are falsy, everything else truthy. -/
def truthy : PyVal → Bool
  | vnone => false
  | vbool b => b
  | vnum n => n != 0
  | vstr s => s != ""
  | vlist xs => !xs.isEmpty
  | vdict d => !d.isEmpty

mutual

/-- Python `repr(v)` as used by `str` inside containers (strings are
quoted). -/
def pyReprAux : PyVal → String
  | vnone => "None"
  | vbool b => cond b "True" "False"
  | vnum n => toString n
  | vstr s => "\x27" ++ s ++ "\x27"
  | vlist xs => "[" ++ pyReprList xs ++ "]"
  | vdict d => "\x7b" ++ pyReprDict d ++ "\x7d"

/-- Comma-joined `repr` of list elements. -/
def pyReprList : List PyVal → String
  | [] => ""
  | [x] => pyReprAux x
  | x :: xs => pyReprAux x ++ ", " ++ pyReprList xs

/-- Comma-joined `'key': repr(value)` entries of a dict. -/
def pyReprDict : List (String × PyVal) → String
  | [] => ""
  | [(k, v)] => "\x27" ++ k ++ "\x27: " ++ pyReprAux v
  | (k, v) :: xs => "\x27" ++ k ++ "\x27: " ++ pyReprAux v ++ ", " ++ pyReprDict xs

end

/-- Python `str(v)` (`str` and `repr` agree except on strings, which
`str` leaves unquoted). -/
def pyStr (v : PyVal) : String :=
  match v with
  | vnone => "None"
  | vbool b => cond b "True" "False"
  | vnum n => toString n
  | vstr s => s
  | vlist xs => "[" ++ pyReprList xs ++ "]"
  | vdict d => "\x7b" ++ pyReprDict d ++ "\x7d"

end PyVal

open PyVal

/-- `d.get(key, dflt)` on the association list of a Python dict. -/
def dGet (fields : List (String × PyVal)) (key : String) (dflt : PyVal) : PyVal :=
  match fields with
  | [] => dflt
  | (k, v) :: rest => if k = key then v else dGet rest key dflt

/-- `d[key] = v` on a Python dict: replace the existing binding, else append. -/
def dSet (fields : List (String × PyVal)) (key : String) (v : PyVal) :
    List (String × PyVal) :=
  match fields with
  | [] => [(key, v)]
  | (k, w) :: rest => if k = key then (k, v) :: rest else (k, w) :: dSet rest key v

/-- The binding of `key` in a dict, when present. -/
def dFind (fields : List (String × PyVal)) (key : String) : Option PyVal :=
  match fields with
  | [] => none
  | (k, v) :: rest => if k = key then some v else dFind rest key

/-- Read a field of an emitted record (a `vdict`); `vnone` if absent or
not a dict.  Used only to state claims about emitted records. -/
def getField (r : PyVal) (key : String) : PyVal :=
  match r with
  | .vdict d => dGet d key .vnone
  | _ => .vnone

/-- `prop.get(key, dflt)` where `prop` may be any value: raises
(`none`) unless `prop` is a dict. -/
def pyGet (prop : PyVal) (key : String) (dflt : PyVal) : Option PyVal :=
  match prop with
  | .vdict d => some (dGet d key dflt)
  | _ => none

/-- Python `a or b`. -/
def pyOr (a b : PyVal) : PyVal := if truthy a then a else b

/-- Python `s.startswith(p)`. -/
def pyStartsWith (s p : String) : Bool := p.data.isPrefixOf s.data

/-- Whether `needle` occurs as a contiguous sublist of `hay`. -/
def charListInfix (needle : List Char) : List Char → Bool
  | [] => needle.isEmpty
  | c :: rest => needle.isPrefixOf (c :: rest) || charListInfix needle rest

/-- Python `needle in hay` for strings (substring containment). -/
def containsSubstr (hay needle : String) : Bool := charListInfix needle.data hay.data

/-- Python iteration `for x in v`: lists yield their items, strings their
characters, dicts their keys; other values raise `TypeError` (`none`). -/
def pyIter : PyVal → Option (List PyVal)
  | .vlist xs => some xs
  | .vstr s => some (s.data.map fun c => .vstr (String.mk [c]))
  | .vdict d => some (d.map fun kv => .vstr kv.1)
  | _ => none

/-- Python `v > 0` followed by `bool(...)`: defined for numbers and
booleans (`True > 0` is `True`), raises `TypeError` otherwise. -/
def pyGtZero : PyVal → Option Bool
  | .vnum n => some (decide (0 < n))
  | .vbool b => some b
  | _ => none

/-- Python `v == 1` (note `True == 1` holds in Python). -/
def pyEqOne : PyVal → Bool
  | .vnum n => n == 1
  | .vbool b => b
  | _ => false

/-- Python `s.lower()` (character-wise lower-casing; the registry
identifiers concerned are ASCII). -/
def pyLower (s : String) : String := String.mk (s.data.map Char.toLower)

/-- A value usable as a Python dict key (`hashable`): lists and dicts
raise `TypeError` when used as keys. -/
def hashable : PyVal → Bool
  | .vlist _ => false
  | .vdict _ => false
  | _ => true

/-! ## Source 1 (`app/sources/inmoup.py`): `InmoupScraper` -/

/-- The relative path of the placeholder image recognised by
`InmoupScraper.get_buildings` (line 57). -/
def placeholderPath : String := "/bundles/inmoup/images/v11.03/empty-photo-box.jpg"

/-- `InmoupScraper._fix_image_url` on a string argument (lines 21-39):
empty strings pass through as `""`, URLs already starting with
`http://` or `https://` pass through unchanged, everything else is
prefixed with `https://inmoup.com.ar`. -/
def fixImageUrlStr (s : String) : String :=
  if s = "" then ""
  else if pyStartsWith s "http://" || pyStartsWith s "https://" then s
  else "https://inmoup.com.ar" ++ s

/-- `InmoupScraper._fix_image_url` on an arbitrary value: a falsy
argument yields `""`; a truthy non-string raises `AttributeError` at
`.startswith` (`none`). -/
def fixImageUrl (v : PyVal) : Option String :=
  match v with
  | .vstr s => some (fixImageUrlStr s)
  | _ => if truthy v then none else some ""

/-- The `additional_imgs` loop of `_get_buildings_httpx` (lines 293-297):
fix each entry of `fotos` and keep the truthy results; a raise inside
the loop aborts the record (`none`). -/
def inmoupAdditional : List PyVal → Option (List String)
  | [] => some []
  | img :: rest =>
    match fixImageUrl img with
    | none => none
    | some fixedImg =>
      match inmoupAdditional rest with
      | none => none
      | some tail => some (if fixedImg = "" then tail else fixedImg :: tail)

/-- One record of the embedded-JSON path of
`InmoupScraper._get_buildings_httpx` (lines 287-315); `none` when the
per-record `try` block raised (the record is skipped, line 316). -/
def inmoupJsonRecord (prop : PyVal) : Option PyVal :=
  match prop with
  | .vdict d =>
    match fixImageUrl (dGet d "foto_portada" (.vstr "")) with
    | none => none
    | some mainImage =>
      match pyIter (dGet d "fotos" (.vlist [])) with
      | none => none
      | some fotos =>
        match inmoupAdditional fotos with
        | none => none
        | some addImgs =>
          some (.vdict [
            ("price", dGet d "precio" (.vstr "")),
            ("direccion", .vstr (pyStr (dGet d "calle" (.vstr "")) ++ ", " ++
              pyStr (dGet d "localidad" (.vstr "")))),
            ("image", .vstr mainImage),
            ("additional_images", .vlist (addImgs.map PyVal.vstr)),
            ("habitaciones", .vstr (pyStr (dGet d "cant_habitaciones" (.vstr "")))),
            ("supTotal", .vstr (pyStr (dGet d "sup_total" (.vstr "")))),
            ("supCub", .vstr (pyStr (dGet d "sup_cubierta" (.vstr "")))),
            ("garage", .vbool (truthy (dGet d "garage" (.vbool false)))),
            ("banos", .vstr (pyStr (dGet d "cant_banos" (.vstr "")))),
            ("url", .vstr ("https://inmoup.com.ar" ++ pyStr (dGet d "url" (.vstr "")))),
            ("kid", .vstr (pyStr (dGet d "id" (.vstr "")))),
            ("hasgeolocation", .vstr
              (if truthy (dGet d "lat" .vnone) && truthy (dGet d "lng" .vnone)
               then "true" else "false")),
            ("latitude", .vstr (pyStr (dGet d "lat" (.vstr "")))),
            ("longitude", .vstr (pyStr (dGet d "lng" (.vstr "")))),
            ("source", .vstr "inmoup")])
  | _ => none

/-- Lookup in a string-keyed attribute list with a default, modelling
BeautifulSoup `tag.get(key, dflt)` and attribute maps in general. -/
def sGet (attrs : List (String × String)) (key dflt : String) : String :=
  match attrs with
  | [] => dflt
  | (k, v) :: rest => if k = key then v else sGet rest key dflt

/-- A listing-card `<article>` DOM node as consumed by the DOM-scraping
fallback of `_get_buildings_httpx` (lines 321-364): its attributes, the
text of its `div.property-data` child (if any), the `src` attribute of
its first `img` child (element present?, attribute present?), and the
`href` of its `a.cont-photo` child. -/
structure Article where
  attrs : List (String × String)
  propertyDataText : Option String
  imgElem : Option (Option String)
  contPhoto : Option (Option String)

/-- One record of the DOM-scraping path of `_get_buildings_httpx`
(lines 321-364).  No operation on a BeautifulSoup tag raises here, so
the per-record `try` never fires and the function is total. -/
def inmoupDomRecord (a : Article) : PyVal :=
  let direccion := match a.propertyDataText with
    | some t => (t.trim).replace "\n\n" ", "
    | none => ""
  let imageRel := match a.imgElem with
    | some srcAttr => srcAttr.getD ""
    | none => ""
  let propUrl := match a.contPhoto with
    | some hrefAttr => "https://inmoup.com.ar" ++ hrefAttr.getD ""
    | none => ""
  .vdict [
    ("price", .vstr (sGet a.attrs "precio" "")),
    ("direccion", .vstr direccion),
    ("image", .vstr (fixImageUrlStr imageRel)),
    ("additional_images", .vlist []),
    ("habitaciones", .vstr (sGet a.attrs "ser_1" "")),
    ("supTotal", .vstr (sGet a.attrs "sup_t" "")),
    ("supCub", .vstr (sGet a.attrs "sup_c" "")),
    ("garage", .vstr (sGet a.attrs "ser_3" "")),
    ("banos", .vstr (sGet a.attrs "ser_2" "")),
    ("url", .vstr propUrl),
    ("kid", .vstr (sGet a.attrs "kid" "")),
    ("hasgeolocation", .vstr (sGet a.attrs "hasgeolocation" "")),
    ("latitude", .vstr (sGet a.attrs "lat" "")),
    ("longitude", .vstr (sGet a.attrs "lng" "")),
    ("source", .vstr "inmoup")]

/-- The parsed page served to `_get_buildings_httpx`: the embedded
`window.rdb_properties` JSON array when the script/regex/`json.loads`
chain succeeds (lines 271-283), and the `<article>` nodes. -/
structure InmoupPage where
  propertiesData : Option (List PyVal)
  articles : List Article

/-- Body of `_get_buildings_httpx` after a 200 response (lines 261-368):
prefer records from the embedded JSON; when that yields none, scrape the
`<article>` nodes instead. -/
def inmoupHttpxExtract (page : InmoupPage) : List PyVal :=
  let jsonBuildings := (page.propertiesData.getD []).filterMap inmoupJsonRecord
  if jsonBuildings.isEmpty then page.articles.map inmoupDomRecord
  else jsonBuildings

/-- A rendered `<article>` element as consumed by
`_get_buildings_playwright` (lines 436-499): `get_attribute` results
(absent attribute = Python `None`, turned into `""` by the `or ""`
idiom and folded into `attrs` here with default `""`), the
`div.property-data` inner text, the first `img` child with its `src`,
the `.fotos-ficha` and `[itemscope="photo"]` image `src` attributes,
the `a.cont-photo` child with its `href`, and whether processing this
element raised (the element is then skipped, line 500). -/
structure PwElement where
  raises : Bool
  attrs : List (String × String)
  propertyDataText : Option String
  imgElem : Option (Option String)
  fotosFicha : List (Option String)
  itemscopePhotos : List (Option String)
  contPhoto : Option (Option String)

/-- The `additional_images` loop of `_get_buildings_playwright`
(lines 459-478): keep truthy `src` values, fix them, and skip
duplicates (`if fixed_url not in additional_images`). -/
def pwAdditional (srcs : List (Option String)) : List String :=
  srcs.foldl (fun acc srcAttr =>
    match srcAttr with
    | some u => if u = "" then acc
        else if acc.contains (fixImageUrlStr u) then acc
        else acc ++ [fixImageUrlStr u]
    | none => acc) []

/-- One record of `_get_buildings_playwright` (lines 436-499); `none`
when the per-element `try` raised. -/
def pwRecord (e : PwElement) : Option PyVal :=
  if e.raises then none else
  let direccion := (e.propertyDataText.getD "").replace "\n\n" ", "
  let image := match e.imgElem with
    | some (some s) => fixImageUrlStr s
    | _ => ""
  let additional0 := pwAdditional e.fotosFicha
  let additional := if additional0.isEmpty then pwAdditional e.itemscopePhotos
    else additional0
  let hrefStr := match e.contPhoto with
    | some (some h) => h
    | some none => "None"
    | none => ""
  some (.vdict [
    ("price", .vstr (sGet e.attrs "precio" "")),
    ("direccion", .vstr direccion),
    ("image", .vstr image),
    ("additional_images", .vlist (additional.map PyVal.vstr)),
    ("habitaciones", .vstr (sGet e.attrs "ser_1" "")),
    ("supTotal", .vstr (sGet e.attrs "sup_t" "")),
    ("supCub", .vstr (sGet e.attrs "sup_c" "")),
    ("garage", .vstr (sGet e.attrs "ser_3" "")),
    ("banos", .vstr (sGet e.attrs "ser_2" "")),
    ("url", .vstr ("https://inmoup.com.ar" ++ hrefStr)),
    ("kid", .vstr (sGet e.attrs "kid" "")),
    ("hasgeolocation", .vstr (sGet e.attrs "hasgeolocation" "")),
    ("latitude", .vstr (sGet e.attrs "lat" "")),
    ("longitude", .vstr (sGet e.attrs "lng" "")),
    ("source", .vstr "inmoup")])

/-- The browser world as seen by `_get_buildings_playwright`: whether
the launch and the navigation succeed, and the rendered elements. -/
structure PwEnv where
  launchOk : Bool
  gotoOk : Bool
  elements : List PwElement

/-- `_get_buildings_playwright` as observed from `get_buildings`
(lines 370-511 plus the wrapper at 73-83): a navigation failure raises
`HTTPException(503)` (line 426) which the blanket handler at line 506
re-raises as `HTTPException(500)`, and `get_buildings` re-wraps any
failure as `HTTPException(500)` (line 80).  So the boundary outcome is
the record list or a 500. -/
def inmoupPlaywrightWrapped (env : PwEnv) : Except Nat (List PyVal) :=
  if env.launchOk && env.gotoOk then .ok (env.elements.filterMap pwRecord)
  else .error 500

/-- An `<article>` element as consumed by
`_enhance_with_playwright_images` (lines 150-192).  A raise while
reading the `kid`/main image is `raisesEarly` (nothing recorded); a
raise after the main-image write but before the additional images is
`raisesLate` (a main-image entry may remain). -/
structure EnhElement where
  raisesEarly : Bool
  raisesLate : Bool
  kid : Option String
  imgElem : Option (Option String)
  fotosFicha : List (Option String)
  itemscopePhotos : List (Option String)

/-- A value of the enhancement `image_map`: either a bare image URL
(line 161) or a `{'main': …, 'additional': …}` dict (lines 182-190)
whose `'main'` may itself be a previous map value when the same `kid`
occurs twice. -/
inductive EnhVal where
  | bare : String → EnhVal
  | withAdd : EnhVal → List String → EnhVal

/-- Render an `EnhVal` back into the Python value stored in a record. -/
def EnhVal.toMain : EnhVal → PyVal
  | .bare s => .vstr s
  | .withAdd m adds => .vdict [("main", m.toMain), ("additional", .vlist (adds.map PyVal.vstr))]

/-- Assignment into the enhancement `image_map`. -/
def mapSet (m : List (String × EnhVal)) (key : String) (v : EnhVal) :
    List (String × EnhVal) :=
  match m with
  | [] => [(key, v)]
  | (k, w) :: rest => if k = key then (k, v) :: rest else (k, w) :: mapSet rest key v

/-- Lookup in the enhancement `image_map`. -/
def mapGet (m : List (String × EnhVal)) (key : String) : Option EnhVal :=
  match m with
  | [] => none
  | (k, v) :: rest => if k = key then some v else mapGet rest key

/-- The additional-image collection of the enhancement pass
(lines 163-178): like the playwright one but with a placeholder filter
and without the duplicate check. -/
def enhAdditional (srcs : List (Option String)) : List String :=
  srcs.foldl (fun acc srcAttr =>
    match srcAttr with
    | some u =>
      if u = "" then acc
      else if containsSubstr u placeholderPath then acc
      else acc ++ [fixImageUrlStr u]
    | none => acc) []

/-- Processing of one element of the enhancement pass (lines 150-192),
updating `image_map`. -/
def enhProcessElement (m : List (String × EnhVal)) (e : EnhElement) :
    List (String × EnhVal) :=
  if e.raisesEarly then m else
  let kid := e.kid.getD ""
  let imageRel : PyVal := match e.imgElem with
    | some (some s) => .vstr s
    | some none => .vnone
    | none => .vstr ""
  let m1 := match imageRel with
    | .vstr s => if s ≠ "" && !containsSubstr s placeholderPath
        then mapSet m kid (.bare (fixImageUrlStr s)) else m
    | _ => m
  if e.raisesLate then m1 else
  let additional0 := enhAdditional e.fotosFicha
  let additional := if additional0.isEmpty then enhAdditional e.itemscopePhotos
    else additional0
  if additional.isEmpty then m1
  else match mapGet m1 kid with
    | some prev => mapSet m1 kid (.withAdd prev additional)
    | none =>
      let mainFix := match imageRel with
        | .vstr s => fixImageUrlStr s
        | _ => ""
      mapSet m1 kid (.withAdd (.bare mainFix) additional)

/-- The `image_map` built over all elements (lines 149-192). -/
def buildImageMap (elems : List EnhElement) : List (String × EnhVal) :=
  elems.foldl enhProcessElement []

/-- Splice the harvested images into the already-produced records by
`kid` (lines 196-209). -/
def applyImageMap (m : List (String × EnhVal)) (buildings : List PyVal) :
    List PyVal :=
  buildings.map fun b =>
    let kid := match b with
      | .vdict d => dGet d "kid" (.vstr "")
      | _ => .vstr ""
    match kid with
    | .vstr k =>
      match mapGet m k with
      | some (.bare s) =>
        match b with
        | .vdict d => .vdict (dSet d "image" (.vstr s))
        | _ => b
      | some (.withAdd main adds) =>
        match b with
        | .vdict d => .vdict (dSet (dSet d "image" main.toMain)
            "additional_images" (.vlist (adds.map PyVal.vstr)))
        | _ => b
      | none => b
    | _ => b

/-- The browser world as seen by `_enhance_with_playwright_images`. -/
structure EnhEnv where
  launchOk : Bool
  gotoOk : Bool
  elements : List EnhElement

/-- `_enhance_with_playwright_images` (lines 85-213).  Every failure is
absorbed: a launch failure hits the handler at line 211, a navigation
failure returns the unmodified records at line 143, and per-element
failures are skipped at line 191; so the function is total. -/
def enhanceWithPlaywrightImages (buildings : List PyVal) (env : EnhEnv) :
    List PyVal :=
  if buildings.isEmpty then []
  else if !env.launchOk then buildings
  else if !env.gotoOk then buildings
  else applyImageMap (buildImageMap env.elements) buildings

/-- `building.get("image", "")` as read by the `missing_images`
generator (line 57); `none` models the `AttributeError` on a non-dict
record. -/
def imageOfRecord (b : PyVal) : Option PyVal :=
  match b with
  | .vdict d => some (dGet d "image" (.vstr ""))
  | _ => none

/-- The `missing_images` generator of `get_buildings` (lines 56-59):
`all` of a substring test against each record's `image`; `none` models
the exception raised when some record is not a dict or its `image` is
not a string (the handler at line 73 then falls back to the full
playwright tactic). -/
def missingImagesQ : List PyVal → Option Bool
  | [] => some true
  | b :: rest =>
    match imageOfRecord b with
    | some (.vstr s) =>
      if containsSubstr s placeholderPath then missingImagesQ rest
      else some false
    | _ => none

/-- The outside world of one `InmoupScraper.get_buildings` call:
the parsed httpx page (or `none` when the request raised or returned a
non-200, line 254), the playwright fallback environment and the
enhancement environment. -/
structure InmoupEnv where
  httpx : Option InmoupPage
  pw : PwEnv
  enh : EnhEnv

/-- Whether `get_buildings` enters the image-enhancement pass
(line 61: `if missing_images and buildings`). -/
def enhancementTriggered (page : InmoupPage) : Bool :=
  let buildings := inmoupHttpxExtract page
  match missingImagesQ buildings with
  | some m => m && !buildings.isEmpty
  | none => false

/-- `InmoupScraper.get_buildings` (lines 41-83): httpx first; on its
failure the playwright fallback; placeholder-only results go through
the (never-failing) enhancement pass, whose own failures return the
httpx records unchanged (lines 63-69). -/
def inmoupGetBuildings (env : InmoupEnv) : Except Nat (List PyVal) :=
  match env.httpx with
  | some page =>
    let buildings := inmoupHttpxExtract page
    match missingImagesQ buildings with
    | some m =>
      if m && !buildings.isEmpty
      then .ok (enhanceWithPlaywrightImages buildings env.enh)
      else .ok buildings
    | none => inmoupPlaywrightWrapped env.pw
  | none => inmoupPlaywrightWrapped env.pw

/-! ## Source 2 (`app/sources/mendozaprop.py`): `MendozaPropScraper` -/

/-- Outcome of one primary page request inside the pagination loop
(lines 114-127): a 200 response with parsed JSON body, a non-200
response (raises `HTTPException(503)` at line 118, caught by the
generic handler at line 128), an `asyncio.TimeoutError` (line 125), or
any other exception (line 128). -/
inductive Fetch where
  | ok : PyVal → Fetch
  | non200 : Fetch
  | timeout : Fetch
  | exn : Fetch

/-- Whether a primary outcome reaches the SSL-disabled retry block
(lines 128-151): `non200` and `exn` do; a timeout breaks the loop
instead (line 127). -/
def transportFail : Fetch → Bool
  | .non200 => true
  | .exn => true
  | _ => false

/-- State of the geocode cache of one scraper instance
(`self.geocode_cache`, line 22), instrumented with the number of
Nominatim network lookups issued. -/
structure GeoSt where
  cache : List (PyVal × (PyVal × PyVal))
  calls : Nat

/-- Outcome of the Nominatim request of `_geocode_address`
(lines 398-404), keyed by the search string. -/
inductive GeoResp where
  | httpOk : PyVal → GeoResp
  | badStatus : GeoResp
  | raises : GeoResp

/-- The value pair `_geocode_address` extracts from a Nominatim
response (lines 398-409): `geocode_data[0].get("lat","")` and
`.get("lon","")` on a 200 response with a non-empty JSON list whose
head is a dict; `("", "")` in every other case (including the `except`
handler). -/
def geocodeResult : GeoResp → PyVal × PyVal
  | .httpOk (.vlist (.vdict d :: _)) => (dGet d "lat" (.vstr ""), dGet d "lon" (.vstr ""))
  | _ => (.vstr "", .vstr "")

/-- `_geocode_address` (lines 376-409): one network lookup for
`f"{address}, Mendoza, Argentina"`. -/
def geocodeAddress (geo : String → GeoResp) (address : PyVal) : PyVal × PyVal :=
  geocodeResult (geo (pyStr address ++ ", Mendoza, Argentina"))

/-- Cache lookup with Python `==` on the keys. -/
def cacheGet (cache : List (PyVal × (PyVal × PyVal))) (key : PyVal) :
    Option (PyVal × PyVal) :=
  match cache with
  | [] => none
  | (k, v) :: rest => if k == key then some v else cacheGet rest key

/-- Cache assignment. -/
def cacheSet (cache : List (PyVal × (PyVal × PyVal))) (key : PyVal)
    (v : PyVal × PyVal) : List (PyVal × (PyVal × PyVal)) :=
  match cache with
  | [] => [(key, v)]
  | (k, w) :: rest => if k == key then (k, v) :: rest else (k, w) :: cacheSet rest key v

/-- `MendozaPropScraper._extract_value` (lines 359-374): first truthy
value among the keys, else `""`. -/
def extractValue (d : List (String × PyVal)) : List String → PyVal
  | [] => .vstr ""
  | k :: rest =>
    let v := dGet d k (.vstr "")
    if truthy v then v else extractValue d rest

/-- Coordinate extraction of `_process_property` before geocoding
(lines 218-239): flat fields first, then the `map`, `coords` and
`location` sub-objects. -/
def mzRawCoords (d : List (String × PyVal)) : PyVal × PyVal :=
  let latitude := extractValue d ["latitude", "google_lat"]
  let longitude := extractValue d ["longitude", "google_lng"]
  if !truthy latitude || !truthy longitude then
    let (latitude, longitude) := match dGet d "map" (.vdict []) with
      | .vdict m => (pyOr latitude (dGet m "latitude" (.vstr "")),
                     pyOr longitude (dGet m "longitude" (.vstr "")))
      | _ => (latitude, longitude)
    let (latitude, longitude) := match dGet d "coords" (.vdict []) with
      | .vdict m => (pyOr latitude (dGet m "lat" (.vstr "")),
                     pyOr longitude (dGet m "lng" (.vstr "")))
      | _ => (latitude, longitude)
    match dGet d "location" (.vdict []) with
      | .vdict m => (pyOr latitude (dGet m "latitude" (dGet m "lat" (.vstr ""))),
                     pyOr longitude (dGet m "longitude" (dGet m "lng" (.vstr ""))))
      | _ => (latitude, longitude)
  else (latitude, longitude)

/-- The geocoding step of `_process_property` (lines 241-253): when an
address exists and a coordinate is missing, consult the cache, else
issue one lookup and cache a truthy result.  `none` models the
`TypeError` raised by `direccion in self.geocode_cache` on an
unhashable address (state untouched, as the raise precedes any
mutation). -/
def mzGeoStep (geo : String → GeoResp) (direccion latV lngV : PyVal)
    (st : GeoSt) : Option ((PyVal × PyVal) × GeoSt) :=
  if truthy direccion && (!truthy latV || !truthy lngV) then
    if hashable direccion then
      match cacheGet st.cache direccion with
      | some (la, lo) => some ((la, lo), st)
      | none =>
        let (la, lo) := geocodeAddress geo direccion
        let st1 : GeoSt := { st with calls := st.calls + 1 }
        if truthy la && truthy lo then
          some ((la, lo), { st1 with cache := cacheSet st1.cache direccion (la, lo) })
        else some ((la, lo), st1)
    else none
  else some ((latV, lngV), st)

/-- Coordinate resolution of `_process_property` (lines 218-253):
raw extraction followed by the geocoding step. -/
def mzCoordsAndGeo (geo : String → GeoResp) (d : List (String × PyVal))
    (st : GeoSt) : Option ((PyVal × PyVal) × GeoSt) :=
  let (latV, lngV) := mzRawCoords d
  mzGeoStep geo (dGet d "address" (.vstr "")) latV lngV st

/-- The `processed_images` loop (lines 285-294): keep strings, and
truthy `url`/`src`/`path` entries of dicts. -/
def mzProcessed : List PyVal → List PyVal
  | [] => []
  | img :: rest =>
    match img with
    | .vstr s => .vstr s :: mzProcessed rest
    | .vdict m =>
      let u := dGet m "url" (dGet m "src" (dGet m "path" (.vstr "")))
      if truthy u then u :: mzProcessed rest else mzProcessed rest
    | _ => mzProcessed rest

/-- Normalisation of a non-string `main_image` (lines 310-313):
extract `url`/`src`/`path` from a dict, the head of a non-empty list
when it is a string (else `""`); other values pass through. -/
def mzNormalizeMain : PyVal → PyVal
  | .vdict m => dGet m "url" (dGet m "src" (dGet m "path" (.vstr "")))
  | .vlist (x :: _) => match x with
    | .vstr s => .vstr s
    | _ => .vstr ""
  | v => v

/-- The absolute-URL prefix of mendozaprop images (lines 321, 324):
a leading slash is inserted when missing. -/
def mendozaPrefix (s : String) : String :=
  "https://www.mendozaprop.com" ++ (if pyStartsWith s "/" then s else "/" ++ s)

/-- Absolutisation of `main_image` (lines 320-321): falsy values stay
as they are; a truthy non-string raises at `.startswith` (`none`). -/
def mzAbsMain (v : PyVal) : Option PyVal :=
  if truthy v then
    match v with
    | .vstr s => some (.vstr
        (if pyStartsWith s "http://" || pyStartsWith s "https://" then s
         else mendozaPrefix s))
    | _ => none
  else some v

/-- Absolutisation of `additional_images` (lines 323-327): drop falsy
entries, absolutise the rest; a truthy non-string raises (`none`). -/
def mzAbsList : List PyVal → Option (List String)
  | [] => some []
  | img :: rest =>
    if truthy img then
      match img with
      | .vstr s =>
        match mzAbsList rest with
        | none => none
        | some tail => some
            ((if pyStartsWith s "http://" || pyStartsWith s "https://" then s
              else mendozaPrefix s) :: tail)
      | _ => none
    else mzAbsList rest

/-- The `all_images` selection of `_process_property` (lines 260-271):
the `images` field, else `photos`/`gallery`, else `media.images`. -/
def mzAllImages (d : List (String × PyVal)) : PyVal :=
  let allImages0 := dGet d "images" (.vlist [])
  let allImages1 := if truthy allImages0 then allImages0
    else dGet d "photos" (dGet d "gallery" (.vlist []))
  if truthy allImages1 then allImages1
  else match dGet d "media" (.vdict []) with
    | .vdict m => dGet m "images" (.vlist [])
    | _ => allImages1

/-- The `main_image`/`additional_images` selection of
`_process_property` before absolutisation (lines 255-307): the direct
`image`/`photo` field wins as main image; the processed `all_images`
supply the main image when there is none, and the additional images
(`[:10]` when a direct main image exists, `[1:11]` otherwise). -/
def mzMainAdd (d : List (String × PyVal)) : PyVal × List PyVal :=
  let mainDirect := dGet d "image" (dGet d "photo" (.vstr ""))
  let main0 : PyVal := if truthy mainDirect then mainDirect else .vstr ""
  let allImages := mzAllImages d
  if truthy allImages then
    let lst := match allImages with
      | .vlist xs => xs
      | v => [v]
    let processed := mzProcessed lst
    if !processed.isEmpty then
      let mainA := if !truthy main0 then processed.headD (.vstr "") else main0
      let adds := if truthy mainDirect then processed.take 10
        else (processed.drop 1).take 10
      (mainA, adds)
    else (main0, ([] : List PyVal))
  else (main0, ([] : List PyVal))

/-- The image pipeline of `_process_property` (lines 255-327),
producing the final `main_image` value and `additional_images` list;
`none` when it raised.  (The `isinstance(additional_images, list)`
check at line 316 is a no-op: that variable always holds a list.) -/
def mzImagesStage (d : List (String × PyVal)) : Option (PyVal × List String) :=
  match mzAbsMain (mzNormalizeMain (mzMainAdd d).1) with
  | none => none
  | some mainF =>
    match mzAbsList (mzMainAdd d).2 with
    | none => none
    | some addF => some (mainF, addF)

/-- The result dict of `_process_property` (lines 334-351), given the
resolved pieces. -/
def mzRecord (d : List (String × PyVal)) (direccion latV lngV mainF : PyVal)
    (addF : List String) (garage : Bool) : PyVal :=
  .vdict [
    ("id", .vstr (pyStr (dGet d "id" (.vstr "")))),
    ("price", .vstr (pyStr (dGet d "price" (.vstr "")) ++ " " ++
      (if pyEqOne (dGet d "currency_id" (.vstr "")) then "USD" else "ARS"))),
    ("direccion", direccion),
    ("image", mainF),
    ("additional_images", .vlist (addF.map PyVal.vstr)),
    ("habitaciones", .vstr (pyStr (dGet d "bedrooms" (.vstr "")))),
    ("supTotal", .vstr (pyStr (dGet d "m2" (.vstr "")))),
    ("supCub", .vstr (pyStr (dGet d "m2_covered" (.vstr "")))),
    ("banos", .vstr (pyStr (dGet d "bathrooms" (.vstr "")))),
    ("garage", .vbool garage),
    ("url", .vstr ("https://www.mendozaprop.com/alquiler/" ++
      pyStr (dGet d "id" (.vstr "")))),
    ("latitude", .vstr (pyStr latV)),
    ("longitude", .vstr (pyStr lngV)),
    ("hasgeolocation", .vbool (truthy latV && truthy lngV)),
    ("description", .vstr (pyStr (dGet d "description" (.vstr "")))),
    ("source", .vstr "mendozaprop")]

/-- The pure tail of `_process_property` after coordinate resolution
(lines 255-353): image pipeline, `garage` coercion, record dict. -/
def mzBuildRecord (d : List (String × PyVal)) (direccion latV lngV : PyVal) :
    Option PyVal :=
  match mzImagesStage d with
  | none => none
  | some (mainF, addF) =>
    match pyGtZero (dGet d "parking" (.vnum 0)) with
    | none => none
    | some garage => some (mzRecord d direccion latV lngV mainF addF garage)

/-- `MendozaPropScraper._process_property` (lines 200-357): resolves
coordinates (updating the geocode cache), then builds the record;
`none` means the method raised (the caller drops the record,
lines 182-188).  State changes made before a raise are kept. -/
def processProperty (geo : String → GeoResp) (prop : PyVal) (st : GeoSt) :
    Option PyVal × GeoSt :=
  match prop with
  | .vdict d =>
    match mzCoordsAndGeo geo d st with
    | none => (none, st)
    | some ((latV, lngV), st1) =>
      match mzBuildRecord d (dGet d "address" (.vstr "")) latV lngV with
      | none => (none, st1)
      | some r => (some r, st1)
  | _ => (none, st)

/-- `asyncio.gather(..., return_exceptions=True)` over
`_process_property` followed by the dict filter (lines 177-188),
modelled as sequential state threading through the shared cache. -/
def processAll (geo : String → GeoResp) : List PyVal → GeoSt → List PyVal
  | [], _ => []
  | p :: rest, st =>
    match processProperty geo p st with
    | (some r, st1) => r :: processAll geo rest st1
    | (none, st1) => processAll geo rest st1

/-- Result of the pagination loop of `get_buildings` (lines 107-173):
the raw items collected, the number of loop iterations (`page_count`),
the `offset` values requested, the request log (page index, retry?) and
whether the loop aborted by raising `HTTPException(503)` at line 148
(retry failed too). -/
structure LoopRes where
  items : List PyVal
  pageCount : Nat
  offsets : List Nat
  reqs : List (Nat × Bool)
  fatal : Bool

/-- The pagination loop of `MendozaPropScraper.get_buildings`
(lines 107-173), driven by the primary outcome `pages i` of the i-th
request and the outcome `retries i` of its SSL-disabled retry
(`some` data = the retry produced a 200 response with parsed JSON;
`none` = the retry failed, lines 146-151).  `fuel` is
`max_pages - page_count`; `limit` is 50 (line 37). -/
def mzLoop (pages : Nat → Fetch) (retries : Nat → Option PyVal) :
    Nat → Nat → Nat → LoopRes
  | 0, _, _ => ⟨[], 0, [], [], false⟩
  | fuel + 1, i, offset =>
    match pages i with
    | .timeout => ⟨[], 1, [offset], [(i, false)], false⟩
    | .ok data =>
      let props := match data with
        | .vlist xs => xs
        | _ => []
      if props.isEmpty then ⟨[], 1, [offset], [(i, false)], false⟩
      else if props.length < 50 then ⟨props, 1, [offset], [(i, false)], false⟩
      else
        let rest := mzLoop pages retries fuel (i + 1) (offset + props.length)
        ⟨props ++ rest.items, 1 + rest.pageCount, offset :: rest.offsets,
          (i, false) :: rest.reqs, rest.fatal⟩
    | .non200 =>
      match retries i with
      | none => ⟨[], 1, [offset], [(i, false), (i, true)], true⟩
      | some data =>
        let props := match data with
          | .vlist xs => xs
          | _ => []
        if props.isEmpty then ⟨[], 1, [offset], [(i, false), (i, true)], false⟩
        else if props.length < 50 then
          ⟨props, 1, [offset], [(i, false), (i, true)], false⟩
        else
          let rest := mzLoop pages retries fuel (i + 1) (offset + props.length)
          ⟨props ++ rest.items, 1 + rest.pageCount, offset :: rest.offsets,
            (i, false) :: (i, true) :: rest.reqs, rest.fatal⟩
    | .exn =>
      match retries i with
      | none => ⟨[], 1, [offset], [(i, false), (i, true)], true⟩
      | some data =>
        let props := match data with
          | .vlist xs => xs
          | _ => []
        if props.isEmpty then ⟨[], 1, [offset], [(i, false), (i, true)], false⟩
        else if props.length < 50 then
          ⟨props, 1, [offset], [(i, false), (i, true)], false⟩
        else
          let rest := mzLoop pages retries fuel (i + 1) (offset + props.length)
          ⟨props ++ rest.items, 1 + rest.pageCount, offset :: rest.offsets,
            (i, false) :: (i, true) :: rest.reqs, rest.fatal⟩

/-- The outside world of one `MendozaPropScraper.get_buildings` call. -/
structure MzEnv where
  pages : Nat → Fetch
  retries : Nat → Option PyVal
  geo : String → GeoResp

/-- `MendozaPropScraper.get_buildings` (lines 24-198): run the
pagination loop (`max_pages = 5`, line 39), then process every
collected item through the shared cache.  When the loop raised, the
`HTTPException(503)` propagates to the blanket handler at line 193 and
is re-raised as `HTTPException(500)`; the collected pages are lost. -/
def mzGetBuildings (env : MzEnv) : Except Nat (List PyVal) :=
  let res := mzLoop env.pages env.retries 5 0 0
  if res.fatal then .error 500
  else .ok (processAll env.geo res.items ⟨[], 0⟩)

/-! ## Dispatcher (`app/scraper.py`): `ScraperFactory` -/

/-- The two scraper classes held by the registry. -/
inductive SourceTag where
  | inmoup : SourceTag
  | mendozaprop : SourceTag
deriving DecidableEq, Repr

/-- Registry lookup. -/
def regGet (reg : List (String × SourceTag)) (key : String) : Option SourceTag :=
  match reg with
  | [] => none
  | (k, v) :: rest => if k = key then some v else regGet rest key

/-- Registry assignment. -/
def regSet (reg : List (String × SourceTag)) (key : String) (v : SourceTag) :
    List (String × SourceTag) :=
  match reg with
  | [] => [(key, v)]
  | (k, w) :: rest => if k = key then (k, v) :: rest else (k, w) :: regSet rest key v

/-- `ScraperFactory._scrapers` (lines 18-21). -/
def defaultRegistry : List (String × SourceTag) :=
  [("inmoup", .inmoup), ("mendozaprop", .mendozaprop)]

/-- The key computed by `get_scraper` (line 37):
`source.lower() if source else ""`; for a string argument this is just
`source.lower()` since `"".lower() == ""`. -/
def scraperKey (source : String) : String :=
  if source = "" then "" else pyLower source

/-- `ScraperFactory.get_scraper` (lines 23-47): case-insensitive
lookup; an unregistered key raises `HTTPException(400)` (line 44). -/
def getScraper (reg : List (String × SourceTag)) (source : String) :
    Except Nat SourceTag :=
  match regGet reg (scraperKey source) with
  | some tag => .ok tag
  | none => .error 400

/-- `ScraperFactory.register_scraper` (lines 49-58): the key is
lower-cased on registration. -/
def registerScraper (reg : List (String × SourceTag)) (name : String)
    (tag : SourceTag) : List (String × SourceTag) :=
  regSet reg (pyLower name) tag

/-- The pipeline entry point `get_buildings` of `app/scraper.py`
(lines 61-77): dispatch on the source identifier, then run the chosen
scraper against its environment. -/
def getListings (source : String) (ienv : InmoupEnv) (menv : MzEnv) :
    Except Nat (List PyVal) :=
  match getScraper defaultRegistry source with
  | .error e => .error e
  | .ok .inmoup => inmoupGetBuildings ienv
  | .ok .mendozaprop => mzGetBuildings menv

/-! ## Claim-side definitions -/

/-- The 1-based index of the first page, counting from request index
`i`, that is empty or returns fewer than 50 items, looking at most
`fuel` pages ahead; `fuel + 1` when there is none among them. -/
def firstStopAux (pages : Nat → List PyVal) : Nat → Nat → Nat
  | _, 0 => 1
  | i, fuel + 1 =>
    if (pages i).length < 50 then 1 else 1 + firstStopAux pages (i + 1) fuel

/-- The 1-based index of the first page that is empty or returns fewer
than `pageSize = 50` items (6 when none of the first 5 is). -/
def firstStopIdx (pages : Nat → List PyVal) : Nat := firstStopAux pages 0 5

/-- Sum of the lengths of `k` consecutive pages starting at `i`. -/
def cumLenFrom (pages : Nat → List PyVal) : Nat → Nat → Nat
  | _, 0 => 0
  | i, k + 1 => (pages i).length + cumLenFrom pages (i + 1) k

/-- A purely successful paged API: the i-th request returns `pages i`. -/
def pureEnv (pages : Nat → List PyVal) : Nat → Fetch :=
  fun i => .ok (.vlist (pages i))

/-- A record field is an acceptable image value: falsy (absent image)
or a string starting with `http://` or `https://`. -/
def imageValOk (v : PyVal) : Prop :=
  truthy v = false ∨
    ∃ s, v = .vstr s ∧ (pyStartsWith s "http://" = true ∨ pyStartsWith s "https://" = true)

/-- All image URLs of an emitted record are absolute: the `image` field
and every element of `additional_images`. -/
def imageFieldsOk (r : PyVal) : Prop :=
  imageValOk (getField r "image") ∧
    ∀ v ∈ (match getField r "additional_images" with
            | .vlist xs => xs
            | _ => []), imageValOk v

/-- The raw field `k`, when present in the dict, is a string. -/
def strOrAbsent (d : List (String × PyVal)) (k : String) : Prop :=
  ∀ x, dFind d k = some x → ∃ s, x = .vstr s

/-- A mock paged API that always returns exactly 50 items. -/
def allFullPages : Nat → List PyVal := fun _ => List.replicate 50 PyVal.vnone

/-- A mock paged API whose second page returns fewer than 50 items. -/
def shortSecondPages : Nat → List PyVal :=
  fun i => if i = 0 then List.replicate 50 PyVal.vnone
    else List.replicate 20 PyVal.vnone

/-- Outcome of one iteration of the pagination loop, as a function of
the environment: stop at this page (retry used?), continue past it
(retry used?), abort fatally, or break on a timeout. -/
inductive StepKind where
  | stop : List PyVal → Bool → StepKind
  | cont : List PyVal → Bool → StepKind
  | fatalStop : StepKind
  | timeoutStop : StepKind

/-- The iteration outcome for request index `i`. -/
def stepOf (P : Nat → Fetch) (R : Nat → Option PyVal) (i : Nat) : StepKind :=
  match P i with
  | .timeout => .timeoutStop
  | .ok data =>
    let props := match data with
      | .vlist xs => xs
      | _ => []
    if props.isEmpty then .stop [] false
    else if props.length < 50 then .stop props false
    else .cont props false
  | .non200 =>
    match R i with
    | none => .fatalStop
    | some data =>
      let props := match data with
        | .vlist xs => xs
        | _ => []
      if props.isEmpty then .stop [] true
      else if props.length < 50 then .stop props true
      else .cont props true
  | .exn =>
    match R i with
    | none => .fatalStop
    | some data =>
      let props := match data with
        | .vlist xs => xs
        | _ => []
      if props.isEmpty then .stop [] true
      else if props.length < 50 then .stop props true
      else .cont props true

/-- A geocoder that always fails (every lookup returns a non-200). -/
def noGeo : String → GeoResp := fun _ => .badStatus

/-- The kid attributes read by the enhancement pass, in element order. -/
def enhKidList (elems : List EnhElement) : List String :=
  elems.map (fun e => e.kid.getD "")

/-- The absolute URL of the inmoup placeholder image. -/
def placeholderURL : String := "https://inmoup.com.ar" ++ placeholderPath

/-- C1 input: the httpx tactic fails and the playwright launch fails. -/
def c1InmoupEnv : InmoupEnv := ⟨none, ⟨false, true, []⟩, ⟨true, true, []⟩⟩

/-- C1 input: the first page request gets a non-200 and the
SSL-disabled retry fails too. -/
def c1MzEnv : MzEnv := ⟨fun _ => .non200, fun _ => none, noGeo⟩

/-- C3 input: an `<article>` carrying coordinates but an empty
`hasgeolocation` attribute. -/
def c3Article : Article :=
  ⟨[("lat", "-32.9"), ("lng", "-68.8"), ("hasgeolocation", "")], none, none, none⟩

/-- C3 input: a page with no embedded JSON and that one article. -/
def c3Page : InmoupPage := ⟨none, [c3Article]⟩

/-- C3 input: the httpx fetch succeeds with that page. -/
def c3InmoupEnv : InmoupEnv := ⟨some c3Page, ⟨true, true, []⟩, ⟨true, true, []⟩⟩

/-- C3 input: a mendozaprop item with an address and no coordinates. -/
def c3MzProp : PyVal := .vdict [("id", .vnum 1), ("address", .vstr "X")]

/-- C3 input: a geocoder whose response carries the number 0 (falsy) as
`lat` and a non-empty string as `lon`. -/
def c3ZeroGeo : String → GeoResp :=
  fun _ => .httpOk (.vlist [.vdict [("lat", .vnum 0), ("lon", .vstr "-68.8")]])

/-- C4 input: a JSON listing whose cover photo is the site-relative
placeholder (so the enhancement pass triggers). -/
def c4TriggerProp : PyVal :=
  .vdict [("id", .vnum 7), ("foto_portada", .vstr placeholderPath)]

/-- C4 input: first rendered element for kid 7, with a real main image
and one carousel image. -/
def c4EnhA : EnhElement :=
  ⟨false, false, some "7", some (some "/a.jpg"), [some "/f1.jpg"], []⟩

/-- C4 input: second rendered element for the same kid 7, with no main
image but one carousel image. -/
def c4EnhB : EnhElement :=
  ⟨false, false, some "7", none, [some "/f2.jpg"], []⟩

/-- C4 input: httpx page plus the duplicate-kid enhancement page. -/
def c4Env : InmoupEnv :=
  ⟨some ⟨some [c4TriggerProp], []⟩, ⟨true, true, []⟩, ⟨true, true, [c4EnhA, c4EnhB]⟩⟩

/-- A string is an absolute URL in the sense of the spec: it starts
with `http://` or `https://`. -/
def absUrl (s : String) : Prop :=
  pyStartsWith s "http://" = true ∨ pyStartsWith s "https://" = true

/-- A well-shaped `image_map` value: a flat entry whose main image is
empty or absolute and whose additional images are absolute.  Duplicate
`kid` attributes break this shape by nesting map values. -/
def EnhVal.good : EnhVal → Prop
  | .bare s => s = "" ∨ absUrl s
  | .withAdd m adds =>
      (∃ s, m = .bare s ∧ (s = "" ∨ absUrl s)) ∧ ∀ u ∈ adds, absUrl u

/-- C4 witness input: the placeholder page with a single-element (hence
duplicate-free) enhancement pass. -/
def c4WitEnv : InmoupEnv :=
  ⟨some ⟨some [c4TriggerProp], []⟩, ⟨true, true, []⟩, ⟨true, true, [c4EnhA]⟩⟩

/-- C4 witness input: a single-page mendozaprop environment whose one
item carries a site-relative image. -/
def c4MzEnv : MzEnv :=
  ⟨fun i => if i = 0
      then .ok (.vlist [.vdict [("id", .vnum 3), ("image", .vstr "/img/3.jpg")]])
      else .timeout,
   fun _ => none, noGeo⟩

/-- C5 input: page 0 returns 50 items, every later page raises a
transport error. -/
def c5Pages : Nat → Fetch :=
  fun i => if i = 0 then .ok (.vlist (List.replicate 50 PyVal.vnone)) else .exn

/-- C5 input: the SSL-disabled retry always fails. -/
def c5Env : MzEnv := ⟨c5Pages, fun _ => none, noGeo⟩

/-- C6 witness input: a geocoder that resolves exactly one address. -/
def c6Geo : String → GeoResp := fun s =>
  if s = "Calle Falsa 123, Mendoza, Argentina"
  then .httpOk (.vlist [.vdict [("lat", .vstr "-32.9"), ("lon", .vstr "-68.8")]])
  else .badStatus

/-- C7 input: a listing whose cover photo merely contains the
placeholder path as a substring (different host), without being the
site placeholder URL. -/
def c7Prop : PyVal :=
  .vdict [("id", .vnum 1),
          ("foto_portada",
           .vstr "https://cdn.example.com/bundles/inmoup/images/v11.03/empty-photo-box.jpg")]

/-- C7 input: the page holding only that listing. -/
def c7Page : InmoupPage := ⟨some [c7Prop], []⟩

/-- C8 input: a mendozaprop item with a direct `image` that also
appears in its `images` list. -/
def c8MzProp : PyVal :=
  .vdict [("id", .vnum 1), ("image", .vstr "/a.jpg"),
          ("images", .vlist [.vstr "/a.jpg", .vstr "/b.jpg"])]

/-- C8 input: an inmoup JSON listing with 11 gallery photos. -/
def c8InProp : PyVal :=
  .vdict [("foto_portada", .vstr "/m.jpg"),
          ("fotos", .vlist ((List.range 11).map
            fun k => .vstr ("/f" ++ toString k ++ ".jpg")))]

/-- C10 witness input: an article whose `hasgeolocation` attribute is
arbitrary page text. -/
def c10Article : Article := ⟨[("hasgeolocation", "si")], none, none, none⟩

/-- C10 witness input: an inmoup environment producing one DOM record. -/
def c10InEnv : InmoupEnv :=
  ⟨some ⟨none, [c10Article]⟩, ⟨true, true, []⟩, ⟨true, true, []⟩⟩

/-- C10 witness input: a single-page mendozaprop environment with one
item. -/
def c10MzEnv : MzEnv :=
  ⟨fun i => if i = 0 then .ok (.vlist [.vdict [("id", .vnum 3)]]) else .timeout,
   fun _ => none, noGeo⟩

/-! ## Shared lemmas -/

theorem dGet_dSet (d : List (String × PyVal)) (k k2 : String) (v dflt : PyVal) :
    dGet (dSet d k v) k2 dflt = if k2 = k then v else dGet d k2 dflt := by
  induction d with
  | nil =>
    by_cases h : k2 = k
    · subst h; simp [dSet, dGet]
    · simp [dSet, dGet, h, Ne.symm h]
  | cons p rest ih =>
    obtain ⟨pk, pv⟩ := p
    by_cases hk : pk = k
    · subst hk
      by_cases h2 : k2 = pk
      · subst h2; simp [dSet, dGet]
      · simp [dSet, dGet, h2, Ne.symm h2]
    · by_cases h2 : k2 = pk
      · subst h2
        simp [dSet, dGet, hk, Ne.symm hk]
      · simp [dSet, dGet, hk, Ne.symm hk, h2, Ne.symm h2, ih]

theorem regGet_regSet (reg : List (String × SourceTag)) (k k2 : String)
    (v : SourceTag) :
    regGet (regSet reg k v) k2 = if k2 = k then some v else regGet reg k2 := by
  induction reg with
  | nil =>
    by_cases h : k2 = k
    · subst h; simp [regSet, regGet]
    · simp [regSet, regGet, h, Ne.symm h]
  | cons p rest ih =>
    obtain ⟨pk, pv⟩ := p
    by_cases hk : pk = k
    · subst hk
      by_cases h2 : k2 = pk
      · subst h2; simp [regSet, regGet]
      · simp [regSet, regGet, h2, Ne.symm h2]
    · by_cases h2 : k2 = pk
      · subst h2
        simp [regSet, regGet, hk, Ne.symm hk]
      · simp [regSet, regGet, hk, Ne.symm hk, h2, Ne.symm h2, ih]

theorem scraperKey_pyLower (s : String) : scraperKey s = pyLower s := by
  by_cases h : s = ""
  · subst h; rfl
  · simp [scraperKey, h]

/-! ## Claim C9 -/

/-- C9, counterexample.  The claim says resolve "fails with
`UnsupportedSourceError` exactly when the lower-cased sourceId is empty
or not in the registry"; but `register_scraper` accepts the empty
identifier, after which resolving the empty sourceId succeeds instead
of failing. -/
theorem c9_counterexample :
    getScraper (registerScraper defaultRegistry "" SourceTag.inmoup) ""
      = Except.ok SourceTag.inmoup := rfl

/-- C9, amended: resolution is case-insensitive (also for identifiers
added later through `register_scraper`, whose keys are lower-cased on
registration) and fails with `UnsupportedSourceError` (a 400) exactly
when the lower-cased sourceId is not a key of the registry; with the
default registry, where the empty identifier is never registered, the
empty sourceId therefore fails. -/
theorem c9_amended : ∀ (reg : List (String × SourceTag)) (s : String),
    (getScraper reg s = .error 400 ↔ regGet reg (pyLower s) = none) ∧
    (∀ t, getScraper reg s = .ok t ↔ regGet reg (pyLower s) = some t) ∧
    (∀ s2 : String, pyLower s = pyLower s2 →
      getScraper reg s = getScraper reg s2) ∧
    (∀ (n : String) (t : SourceTag),
      getScraper (registerScraper reg n t) s =
        if pyLower s = pyLower n then .ok t else getScraper reg s) ∧
    getScraper defaultRegistry "" = .error 400 := by
  intro reg s
  refine ⟨?_, ?_, ?_, ?_, rfl⟩
  · rw [getScraper, scraperKey_pyLower]
    cases regGet reg (pyLower s) <;> simp
  · intro t
    rw [getScraper, scraperKey_pyLower]
    cases regGet reg (pyLower s) <;> simp
  · intro s2 h
    rw [getScraper, getScraper, scraperKey_pyLower, scraperKey_pyLower, h]
  · intro n t
    rw [getScraper, scraperKey_pyLower, registerScraper, regGet_regSet]
    by_cases h : pyLower s = pyLower n <;>
      simp [h, getScraper, scraperKey_pyLower]

/-- C9, witness for the amended theorem at concrete inputs. -/
theorem c9_witness :
    getScraper defaultRegistry "Inmoup" = getScraper defaultRegistry "inmoup" ∧
    getScraper (registerScraper defaultRegistry "ZonaProp" SourceTag.mendozaprop)
      "zonaprop" = .ok SourceTag.mendozaprop := by
  constructor
  · exact (c9_amended defaultRegistry "Inmoup").2.2.1 "inmoup" (by decide)
  · have h := (c9_amended (registerScraper defaultRegistry "ZonaProp"
      SourceTag.mendozaprop) "zonaprop").2.1 SourceTag.mendozaprop
    exact h.mpr (by decide)

/-! ## Claim C2 -/

theorem mzLoop_pure_succ (pages : Nat → List PyVal) (R : Nat → Option PyVal)
    (fuel i off : Nat) :
    mzLoop (pureEnv pages) R (fuel + 1) i off =
      if (pages i).length < 50 then ⟨pages i, 1, [off], [(i, false)], false⟩
      else
        let rest := mzLoop (pureEnv pages) R fuel (i + 1) (off + (pages i).length)
        ⟨pages i ++ rest.items, 1 + rest.pageCount, off :: rest.offsets,
          (i, false) :: rest.reqs, rest.fatal⟩ := by
  simp only [mzLoop, pureEnv]
  by_cases he : (pages i).isEmpty
  · rw [List.isEmpty_iff] at he
    simp [he]
  · simp only [he, if_false]
    rw [List.isEmpty_iff] at he
    by_cases hl : (pages i).length < 50 <;> simp [hl, he]

theorem mzLoop_pure_pageCount (pages : Nat → List PyVal) (R : Nat → Option PyVal) :
    ∀ fuel i off, (mzLoop (pureEnv pages) R fuel i off).pageCount
      = min fuel (firstStopAux pages i fuel) := by
  intro fuel
  induction fuel with
  | zero => intro i off; simp [mzLoop, firstStopAux]
  | succ fuel ih =>
    intro i off
    rw [mzLoop_pure_succ]
    by_cases hl : (pages i).length < 50
    · simp [hl, firstStopAux]
    · simp only [hl, if_false, firstStopAux, if_neg hl, ih]
      omega

theorem mzLoop_pure_offsets (pages : Nat → List PyVal) (R : Nat → Option PyVal) :
    ∀ fuel i off, (mzLoop (pureEnv pages) R fuel i off).offsets
      = (List.range (mzLoop (pureEnv pages) R fuel i off).pageCount).map
          (fun k => off + cumLenFrom pages i k) := by
  intro fuel
  induction fuel with
  | zero => intro i off; simp [mzLoop]
  | succ fuel ih =>
    intro i off
    rw [mzLoop_pure_succ]
    by_cases hl : (pages i).length < 50
    · simp [hl, cumLenFrom, List.range_succ]
    · simp only [hl, if_false]
      rw [Nat.add_comm 1, List.range_succ_eq_map, List.map_cons, List.map_map, ih]
      simp only [Nat.add_zero, cumLenFrom, List.map_map]
      refine congrArg (List.cons _) (List.map_congr_left ?_)
      intro k _
      simp [Function.comp, cumLenFrom, Nat.add_assoc]

theorem mzLoop_pure_reqs (pages : Nat → List PyVal) (R : Nat → Option PyVal) :
    ∀ fuel i off, (mzLoop (pureEnv pages) R fuel i off).reqs
      = (List.range (mzLoop (pureEnv pages) R fuel i off).pageCount).map
          (fun k => (i + k, false)) := by
  intro fuel
  induction fuel with
  | zero => intro i off; simp [mzLoop]
  | succ fuel ih =>
    intro i off
    rw [mzLoop_pure_succ]
    by_cases hl : (pages i).length < 50
    · simp [hl, List.range_succ]
    · simp only [hl, if_false]
      rw [Nat.add_comm 1, List.range_succ_eq_map, List.map_cons, List.map_map, ih]
      simp only [Nat.add_zero, List.map_map]
      refine congrArg (List.cons _) (List.map_congr_left ?_)
      intro k _
      have hik : i + 1 + k = i + k.succ := by omega
      simp [Function.comp, hik]

/-- C2: for every sequence of page responses, the mendozaprop walker
requests pages strictly sequentially (request log is pages 0, 1, 2, …),
starts at offset 0 and advances the offset by the number of items each
page returned (the requested offsets are the partial sums of the page
lengths), and the number of page requests is the minimum of
`max_pages = 5` and the 1-based index of the first page that is empty
or returns fewer than `limit = 50` items; in particular with pages of
exactly 50 items it performs exactly 5 requests, and with a short
second page exactly 2. -/
theorem c2_pagination_contract : (∀ pages : Nat → List PyVal,
    (mzLoop (pureEnv pages) (fun _ => none) 5 0 0).pageCount
        = min 5 (firstStopIdx pages) ∧
    (mzLoop (pureEnv pages) (fun _ => none) 5 0 0).offsets
        = (List.range (mzLoop (pureEnv pages) (fun _ => none) 5 0 0).pageCount).map
            (cumLenFrom pages 0) ∧
    (mzLoop (pureEnv pages) (fun _ => none) 5 0 0).reqs
        = (List.range (mzLoop (pureEnv pages) (fun _ => none) 5 0 0).pageCount).map
            (fun k => (k, false))) ∧
    (mzLoop (pureEnv allFullPages) (fun _ => none) 5 0 0).pageCount = 5 ∧
    (mzLoop (pureEnv shortSecondPages) (fun _ => none) 5 0 0).pageCount = 2 := by
  refine ⟨fun pages => ⟨?_, ?_, ?_⟩, by rfl, by rfl⟩
  · exact mzLoop_pure_pageCount pages _ 5 0 0
  · rw [mzLoop_pure_offsets]
    exact List.map_congr_left fun k _ => Nat.zero_add _
  · rw [mzLoop_pure_reqs]
    exact List.map_congr_left fun k _ => by rw [Nat.zero_add]

/-! ## Claim C5 -/

theorem mzLoop_succ_step (P : Nat → Fetch) (R : Nat → Option PyVal)
    (fuel i off : Nat) :
    mzLoop P R (fuel + 1) i off =
      match stepOf P R i with
      | .timeoutStop => ⟨[], 1, [off], [(i, false)], false⟩
      | .fatalStop => ⟨[], 1, [off], [(i, false), (i, true)], true⟩
      | .stop items r => ⟨items, 1, [off],
          if r then [(i, false), (i, true)] else [(i, false)], false⟩
      | .cont items r =>
        let rest := mzLoop P R fuel (i + 1) (off + items.length)
        ⟨items ++ rest.items, 1 + rest.pageCount, off :: rest.offsets,
          (if r then [(i, false), (i, true)] else [(i, false)]) ++ rest.reqs,
          rest.fatal⟩ := by
  rcases hP : P i with data | _ | _ | _
  · simp only [mzLoop, stepOf, hP]
    by_cases he : (match data with | PyVal.vlist xs => xs | _ => ([] : List PyVal)).isEmpty
    · simp only [he, if_true, if_pos he]
      rw [List.isEmpty_iff] at he
      simp [he]
    · simp only [he, if_false, if_neg he]
      split_ifs <;> rfl
  · simp only [mzLoop, stepOf, hP]
    rcases hR : R i with _ | data
    · rfl
    · by_cases he : (match data with | PyVal.vlist xs => xs | _ => ([] : List PyVal)).isEmpty
      · simp only [he, if_true, if_pos he]
      · simp only [he, if_false, if_neg he]
        split_ifs <;> rfl
  · simp only [mzLoop, stepOf, hP]
  · simp only [mzLoop, stepOf, hP]
    rcases hR : R i with _ | data
    · rfl
    · by_cases he : (match data with | PyVal.vlist xs => xs | _ => ([] : List PyVal)).isEmpty
      · simp only [he, if_true, if_pos he]
      · simp only [he, if_false, if_neg he]
        split_ifs <;> rfl

theorem stepOf_stop_fail {P : Nat → Fetch} {R : Nat → Option PyVal} {i : Nat}
    {items : List PyVal} {r : Bool} (h : stepOf P R i = .stop items r) :
    transportFail (P i) = r := by
  rcases hP : P i with data | _ | _ | _ <;>
    simp only [stepOf, hP] at h
  · split_ifs at h <;> simp_all [transportFail]
  · rcases hR : R i with _ | data <;> simp only [hR] at h
    · simp at h
    · split_ifs at h <;> simp_all [transportFail]
  · simp at h
  · rcases hR : R i with _ | data <;> simp only [hR] at h
    · simp at h
    · split_ifs at h <;> simp_all [transportFail]

theorem stepOf_cont_fail {P : Nat → Fetch} {R : Nat → Option PyVal} {i : Nat}
    {items : List PyVal} {r : Bool} (h : stepOf P R i = .cont items r) :
    transportFail (P i) = r := by
  rcases hP : P i with data | _ | _ | _ <;>
    simp only [stepOf, hP] at h
  · split_ifs at h <;> simp_all [transportFail]
  · rcases hR : R i with _ | data <;> simp only [hR] at h
    · simp at h
    · split_ifs at h <;> simp_all [transportFail]
  · simp at h
  · rcases hR : R i with _ | data <;> simp only [hR] at h
    · simp at h
    · split_ifs at h <;> simp_all [transportFail]

theorem stepOf_fatal_fail {P : Nat → Fetch} {R : Nat → Option PyVal} {i : Nat}
    (h : stepOf P R i = .fatalStop) :
    transportFail (P i) = true ∧ R i = none := by
  rcases hP : P i with data | _ | _ | _ <;>
    simp only [stepOf, hP] at h
  · split_ifs at h <;> simp_all
  · rcases hR : R i with _ | data <;> simp only [hR] at h
    · simp [transportFail, hR]
    · split_ifs at h <;> simp_all
  · simp at h
  · rcases hR : R i with _ | data <;> simp only [hR] at h
    · simp [transportFail, hR]
    · split_ifs at h <;> simp_all

theorem stepOf_timeout_fail {P : Nat → Fetch} {R : Nat → Option PyVal} {i : Nat}
    (h : stepOf P R i = .timeoutStop) :
    transportFail (P i) = false := by
  rcases hP : P i with data | _ | _ | _ <;>
    simp only [stepOf, hP] at h
  · simp [transportFail]
  · rcases hR : R i with _ | data <;> simp only [hR] at h
    · simp at h
    · split_ifs at h <;> simp_all
  · simp [transportFail]
  · rcases hR : R i with _ | data <;> simp only [hR] at h
    · simp at h
    · split_ifs at h <;> simp_all

theorem mzLoop_reqs_mem_bound (P : Nat → Fetch) (R : Nat → Option PyVal) :
    ∀ fuel i off j b, (j, b) ∈ (mzLoop P R fuel i off).reqs →
      i ≤ j ∧ j < i + fuel := by
  intro fuel
  induction fuel with
  | zero => intro i off j b h; simp [mzLoop] at h
  | succ fuel ih =>
    intro i off j b h
    rw [mzLoop_succ_step] at h
    rcases hs : stepOf P R i with ⟨items, r⟩ | ⟨items, r⟩ | _ | _ <;>
      simp only [hs] at h
    · cases r <;> simp at h
      · obtain ⟨rfl, -⟩ := h; omega
      · rcases h with ⟨rfl, -⟩ | ⟨rfl, -⟩ <;> omega
    · rw [List.mem_append] at h
      rcases h with h | h
      · cases r <;> simp at h
        · obtain ⟨rfl, -⟩ := h; omega
        · rcases h with ⟨rfl, -⟩ | ⟨rfl, -⟩ <;> omega
      · have hb := ih (i + 1) (off + items.length) j b h
        omega
    · simp at h
      rcases h with ⟨rfl, -⟩ | ⟨rfl, -⟩ <;> omega
    · simp at h
      obtain ⟨rfl, -⟩ := h; omega

theorem mzLoop_reqs_nodup (P : Nat → Fetch) (R : Nat → Option PyVal) :
    ∀ fuel i off, (mzLoop P R fuel i off).reqs.Nodup := by
  intro fuel
  induction fuel with
  | zero => intro i off; simp [mzLoop]
  | succ fuel ih =>
    intro i off
    rw [mzLoop_succ_step]
    rcases hs : stepOf P R i with ⟨items, r⟩ | ⟨items, r⟩ | _ | _ <;>
      simp only [hs]
    · cases r <;> simp
    · refine List.Nodup.append ?_ (ih (i + 1) (off + items.length)) ?_
      · cases r <;> simp
      · intro x hx hx'
        obtain ⟨jj, bb⟩ := x
        have hb := mzLoop_reqs_mem_bound P R fuel (i + 1) (off + items.length)
          jj bb hx'
        cases r <;> simp at hx
        · obtain ⟨rfl, -⟩ := hx; omega
        · rcases hx with ⟨rfl, -⟩ | ⟨rfl, -⟩ <;> omega
    · simp
    · simp


theorem stepOf_stop_retryOk {P : Nat → Fetch} {R : Nat → Option PyVal} {i : Nat}
    {items : List PyVal} (h : stepOf P R i = .stop items true) :
    R i ≠ none := by
  rcases hP : P i with data | _ | _ | _ <;> simp only [stepOf, hP] at h
  · split_ifs at h <;> simp_all
  · rcases hR : R i with _ | data <;> simp only [hR] at h
    · simp at h
    · simp [hR]
  · simp at h
  · rcases hR : R i with _ | data <;> simp only [hR] at h
    · simp at h
    · simp [hR]

theorem stepOf_cont_retryOk {P : Nat → Fetch} {R : Nat → Option PyVal} {i : Nat}
    {items : List PyVal} (h : stepOf P R i = .cont items true) :
    R i ≠ none := by
  rcases hP : P i with data | _ | _ | _ <;> simp only [stepOf, hP] at h
  · split_ifs at h <;> simp_all
  · rcases hR : R i with _ | data <;> simp only [hR] at h
    · simp at h
    · simp [hR]
  · simp at h
  · rcases hR : R i with _ | data <;> simp only [hR] at h
    · simp at h
    · simp [hR]
theorem mzLoop_retry_iff (P : Nat → Fetch) (R : Nat → Option PyVal) :
    ∀ fuel i off j, ((j, true) ∈ (mzLoop P R fuel i off).reqs ↔
      (j, false) ∈ (mzLoop P R fuel i off).reqs ∧ transportFail (P j) = true) := by
  intro fuel
  induction fuel with
  | zero => intro i off j; simp [mzLoop]
  | succ fuel ih =>
    intro i off j
    rw [mzLoop_succ_step]
    rcases hs : stepOf P R i with ⟨items, r⟩ | ⟨items, r⟩ | _ | _ <;>
      simp only [hs]
    · have hr := stepOf_stop_fail hs
      cases r <;> simp <;> rintro rfl <;> exact hr
    · have hr := stepOf_cont_fail hs
      by_cases hj : j = i
      · subst hj
        have hnot : ∀ b, (j, b) ∉ (mzLoop P R fuel (j + 1) (off + items.length)).reqs := by
          intro b hmem
          have := mzLoop_reqs_mem_bound P R fuel (j + 1) (off + items.length) j b hmem
          omega
        cases r <;> simp [List.mem_append, hnot, hr]
      · cases r <;>
          simp [List.mem_append, hj, ih (i + 1) (off + items.length) j]
    · have hr := stepOf_fatal_fail hs
      by_cases hj : j = i
      · subst hj; simp [hr.1]
      · simp [hj]
    · simp
      rintro rfl
      exact stepOf_timeout_fail hs

theorem mzLoop_fatal_iff (P : Nat → Fetch) (R : Nat → Option PyVal) :
    ∀ fuel i off, ((mzLoop P R fuel i off).fatal = true ↔
      ∃ j, (j, false) ∈ (mzLoop P R fuel i off).reqs ∧
        transportFail (P j) = true ∧ R j = none) := by
  intro fuel
  induction fuel with
  | zero => intro i off; simp [mzLoop]
  | succ fuel ih =>
    intro i off
    rw [mzLoop_succ_step]
    rcases hs : stepOf P R i with ⟨items, r⟩ | ⟨items, r⟩ | _ | _ <;>
      simp only [hs]
    · have hr := stepOf_stop_fail hs
      cases r <;> simp
      · intro hf
        rw [hr] at hf
        cases hf
      · intro hf
        exact stepOf_stop_retryOk hs
    · have hr := stepOf_cont_fail hs
      rw [ih (i + 1) (off + items.length)]
      constructor
      · rintro ⟨j, hmem, hf, hR⟩
        exact ⟨j, by rw [List.mem_append]; exact Or.inr hmem, hf, hR⟩
      · rintro ⟨j, hmem, hf, hR⟩
        rw [List.mem_append] at hmem
        rcases hmem with hmem | hmem
        · exfalso
          have hji : j = i := by
            cases r <;> simp at hmem <;> tauto
          subst hji
          cases r
          · rw [hr] at hf
            cases hf
          · exact stepOf_cont_retryOk hs hR
        · exact ⟨j, hmem, hf, hR⟩
    · have hr := stepOf_fatal_fail hs
      simp
      exact hr
    · simp
      intro hf
      rw [stepOf_timeout_fail hs] at hf
      cases hf

/-- C5, counterexample.  Page 0 succeeds with 50 items, page 1 hits a
transport error and its SSL-disabled retry fails too: the claim says
the collected page is kept and no fatal error propagates (since one
page was collected), but the code raises, discarding the collected
page, and the caller sees a fatal 500. -/
theorem c5_counterexample :
    (mzLoop c5Env.pages c5Env.retries 5 0 0).items.length = 50 ∧
    (mzLoop c5Env.pages c5Env.retries 5 0 0).reqs
      = [(0, false), (1, false), (1, true)] ∧
    (mzLoop c5Env.pages c5Env.retries 5 0 0).fatal = true ∧
    mzGetBuildings c5Env = .error 500 := ⟨rfl, rfl, rfl, rfl⟩

/-- C5, amended: a page request that fails with a transport error
(non-200 or connection exception; not a timeout) is retried exactly
once via the SSL-verification-skipping session (the request log is
duplicate-free and contains a retry entry for a page exactly when that
page's primary request transport-failed); if that retry also
fails, the whole call aborts with a fatal error *regardless* of how
many pages were already collected, and the collected pages are
discarded (they are only returned when no such double failure
occurred). -/
theorem c5_retry_and_abort : ∀ (P : Nat → Fetch) (R : Nat → Option PyVal)
    (geo : String → GeoResp),
    (∀ j, ((j, true) ∈ (mzLoop P R 5 0 0).reqs ↔
        (j, false) ∈ (mzLoop P R 5 0 0).reqs ∧ transportFail (P j) = true)) ∧
    (mzLoop P R 5 0 0).reqs.Nodup ∧
    ((mzLoop P R 5 0 0).fatal = true ↔
      ∃ j, (j, false) ∈ (mzLoop P R 5 0 0).reqs ∧
        transportFail (P j) = true ∧ R j = none) ∧
    mzGetBuildings ⟨P, R, geo⟩ =
      (if (mzLoop P R 5 0 0).fatal then .error 500
       else .ok (processAll geo (mzLoop P R 5 0 0).items ⟨[], 0⟩)) := by
  intro P R geo
  exact ⟨fun j => mzLoop_retry_iff P R 5 0 0 j, mzLoop_reqs_nodup P R 5 0 0,
    mzLoop_fatal_iff P R 5 0 0, rfl⟩

/-! ## Claim C6 -/

theorem pyBeq_vstr (s t : String) : (PyVal.vstr s == PyVal.vstr t) = (s == t) := by
  simp [BEq.beq, PyVal.pyBeq]

theorem processProperty_firstLookup (geo : String → GeoResp)
    (a la lo : String) (idv : PyVal) (ha : a ≠ "")
    (hgeo : geo (a ++ ", Mendoza, Argentina")
      = .httpOk (.vlist [.vdict [("lat", .vstr la), ("lon", .vstr lo)]]))
    (hla : la ≠ "") (hlo : lo ≠ "") :
    processProperty geo (.vdict [("id", idv), ("address", .vstr a)]) ⟨[], 0⟩
      = (some (mzRecord [("id", idv), ("address", .vstr a)]
          (.vstr a) (.vstr la) (.vstr lo) (.vstr "") [] false),
         ⟨[(.vstr a, (.vstr la, .vstr lo))], 1⟩) := by
  simp [processProperty, mzCoordsAndGeo, mzRawCoords, extractValue, dGet,
    mzGeoStep, truthy, hashable, cacheGet, geocodeAddress, geocodeResult,
    pyStr, hgeo, ha, hla, hlo, mzBuildRecord, mzImagesStage, mzMainAdd, mzAllImages, mzProcessed,
    mzNormalizeMain, mzAbsMain, mzAbsList, pyGtZero, pyOr, cacheSet, pyEqOne]

theorem processProperty_cacheHit (geo : String → GeoResp)
    (a la lo : String) (idv : PyVal) (ha : a ≠ "") (c : Nat) :
    processProperty geo (.vdict [("id", idv), ("address", .vstr a)])
      ⟨[(.vstr a, (.vstr la, .vstr lo))], c⟩
      = (some (mzRecord [("id", idv), ("address", .vstr a)]
          (.vstr a) (.vstr la) (.vstr lo) (.vstr "") [] false),
         ⟨[(.vstr a, (.vstr la, .vstr lo))], c⟩) := by
  simp [processProperty, mzCoordsAndGeo, mzRawCoords, extractValue, dGet,
    mzGeoStep, truthy, hashable, cacheGet, pyBeq_vstr,
    pyStr, ha, mzBuildRecord, mzImagesStage, mzMainAdd, mzAllImages, mzProcessed,
    mzNormalizeMain, mzAbsMain, mzAbsList, pyGtZero, pyOr, pyEqOne]

/-- C6: enriching two mendozaprop items that carry the same non-empty
address and no coordinate data, one after the other within one scraper
instance, issues exactly one Nominatim lookup: the first successful
lookup sets `calls` to 1 and populates the cache, the second enrichment
is a cache hit that leaves `calls` at 1, and both records carry the
identical resolved `(latitude, longitude)`. -/
theorem c6_geocode_cache_idempotent :
    ∀ (geo : String → GeoResp) (a la lo : String) (id1 id2 : PyVal),
    a ≠ "" → la ≠ "" → lo ≠ "" →
    geo (a ++ ", Mendoza, Argentina")
      = .httpOk (.vlist [.vdict [("lat", .vstr la), ("lon", .vstr lo)]]) →
    (processProperty geo (.vdict [("id", id1), ("address", .vstr a)])
        ⟨[], 0⟩).2.calls = 1 ∧
    (processProperty geo (.vdict [("id", id1), ("address", .vstr a)])
        ⟨[], 0⟩).2.cache = [(.vstr a, (.vstr la, .vstr lo))] ∧
    (processProperty geo (.vdict [("id", id2), ("address", .vstr a)])
        (processProperty geo (.vdict [("id", id1), ("address", .vstr a)])
          ⟨[], 0⟩).2).2.calls = 1 ∧
    getField ((processProperty geo (.vdict [("id", id1), ("address", .vstr a)])
        ⟨[], 0⟩).1.getD .vnone) "latitude" = .vstr la ∧
    getField ((processProperty geo (.vdict [("id", id1), ("address", .vstr a)])
        ⟨[], 0⟩).1.getD .vnone) "longitude" = .vstr lo ∧
    getField ((processProperty geo (.vdict [("id", id2), ("address", .vstr a)])
        (processProperty geo (.vdict [("id", id1), ("address", .vstr a)])
          ⟨[], 0⟩).2).1.getD .vnone) "latitude" = .vstr la ∧
    getField ((processProperty geo (.vdict [("id", id2), ("address", .vstr a)])
        (processProperty geo (.vdict [("id", id1), ("address", .vstr a)])
          ⟨[], 0⟩).2).1.getD .vnone) "longitude" = .vstr lo := by
  intro geo a la lo id1 id2 ha hla hlo hgeo
  have h1 := processProperty_firstLookup geo a la lo id1 ha hgeo hla hlo
  rw [h1]
  have h2 := processProperty_cacheHit geo a la lo id2 ha 1
  rw [h2]
  refine ⟨rfl, rfl, rfl, ?_, ?_, ?_, ?_⟩ <;>
    simp [mzRecord, getField, dGet, pyStr]

/-- C6, witness at a concrete address and geocoder. -/
theorem c6_witness :
    (processProperty c6Geo
        (.vdict [("id", .vnum 1), ("address", .vstr "Calle Falsa 123")])
        ⟨[], 0⟩).2.calls = 1 ∧
    (processProperty c6Geo
        (.vdict [("id", .vnum 2), ("address", .vstr "Calle Falsa 123")])
        (processProperty c6Geo
          (.vdict [("id", .vnum 1), ("address", .vstr "Calle Falsa 123")])
          ⟨[], 0⟩).2).2.calls = 1 ∧
    getField ((processProperty c6Geo
        (.vdict [("id", .vnum 1), ("address", .vstr "Calle Falsa 123")])
        ⟨[], 0⟩).1.getD .vnone) "latitude" = .vstr "-32.9" ∧
    getField ((processProperty c6Geo
        (.vdict [("id", .vnum 2), ("address", .vstr "Calle Falsa 123")])
        (processProperty c6Geo
          (.vdict [("id", .vnum 1), ("address", .vstr "Calle Falsa 123")])
          ⟨[], 0⟩).2).1.getD .vnone) "latitude" = .vstr "-32.9" := by
  have h := c6_geocode_cache_idempotent c6Geo "Calle Falsa 123" "-32.9" "-68.8"
    (.vnum 1) (.vnum 2) (by decide) (by decide) (by decide) (by rfl)
  exact ⟨h.1, h.2.2.1, h.2.2.2.1, h.2.2.2.2.2.1⟩

/-! ## Claim C7 -/

/-- C7, counterexample.  A listing whose primary image merely contains
the placeholder path as a substring — it is hosted on a different
domain, so it equals neither the site placeholder URL nor the relative
placeholder path — still triggers the enhancement pass: the trigger is
substring containment, not equality with the site's placeholder URL. -/
theorem c7_counterexample :
    enhancementTriggered c7Page = true ∧
    getField ((inmoupHttpxExtract c7Page).headD .vnone) "image"
      = .vstr "https://cdn.example.com/bundles/inmoup/images/v11.03/empty-photo-box.jpg" ∧
    "https://cdn.example.com/bundles/inmoup/images/v11.03/empty-photo-box.jpg"
      ≠ placeholderURL ∧
    "https://cdn.example.com/bundles/inmoup/images/v11.03/empty-photo-box.jpg"
      ≠ placeholderPath :=
  ⟨rfl, rfl, by decide, by decide⟩

/-- C7, amended: the image-enhancement pass runs iff the lightweight
fetch produced a non-empty record list in which every record's primary
image is a string that *contains the placeholder path as a substring*
(not: equals the site's placeholder URL); and a pass-level failure
(browser launch or navigation) is non-fatal: the already-produced
records are returned unchanged. -/
theorem c7_trigger_and_nonfatal :
    (∀ bs : List PyVal, (missingImagesQ bs = some true ↔
      ∀ b ∈ bs, ∃ s, imageOfRecord b = some (.vstr s) ∧
        containsSubstr s placeholderPath = true)) ∧
    (∀ page : InmoupPage, (enhancementTriggered page = true ↔
      (inmoupHttpxExtract page ≠ [] ∧
        missingImagesQ (inmoupHttpxExtract page) = some true))) ∧
    (∀ (bs : List PyVal) (env : EnhEnv),
      env.launchOk = false ∨ env.gotoOk = false →
      enhanceWithPlaywrightImages bs env = bs) := by
  refine ⟨?_, ?_, ?_⟩
  · intro bs
    induction bs with
    | nil => simp [missingImagesQ]
    | cons b rest ih =>
      simp only [missingImagesQ]
      rcases hb : imageOfRecord b with _ | v
      · simp [hb]
      · rcases v with _ | _ | _ | s | _ | _ <;> simp [hb]
        by_cases hc : containsSubstr s placeholderPath
        · simp [hc, ih]
        · simp [hc]
  · intro page
    rw [enhancementTriggered]
    rcases hm : missingImagesQ (inmoupHttpxExtract page) with _ | m
    · simp
    · rcases m <;> simp [List.isEmpty_iff]
  · intro bs env h
    rw [enhanceWithPlaywrightImages]
    by_cases hbs : bs.isEmpty
    · rw [List.isEmpty_iff] at hbs
      simp [hbs]
    · rcases h with h | h <;> simp [hbs, h]

/-- C7, witness: a launch failure leaves a record list unchanged, and
the trigger characterisation at the counterexample page. -/
theorem c7_witness :
    enhanceWithPlaywrightImages [.vstr "x"] ⟨false, true, []⟩ = [.vstr "x"] ∧
    (enhancementTriggered c7Page = true ↔
      (inmoupHttpxExtract c7Page ≠ [] ∧
        missingImagesQ (inmoupHttpxExtract c7Page) = some true)) :=
  ⟨c7_trigger_and_nonfatal.2.2 [.vstr "x"] ⟨false, true, []⟩ (Or.inl rfl),
   c7_trigger_and_nonfatal.2.1 c7Page⟩

/-! ## Claim C8 -/

theorem mzAbsList_length : ∀ (xs : List PyVal) (ys : List String),
    mzAbsList xs = some ys → ys.length ≤ xs.length := by
  intro xs
  induction xs with
  | nil => intro ys h; simp [mzAbsList] at h; simp [← h]
  | cons img rest ih =>
    intro ys h
    simp only [mzAbsList] at h
    by_cases ht : truthy img
    · rw [if_pos ht] at h
      rcases img with _ | _ | _ | s | _ | _ <;> simp at h
      · rcases hrest : mzAbsList rest with _ | tail <;> rw [hrest] at h
        · simp at h
        · simp at h
          rw [← h]
          simpa using Nat.succ_le_succ (ih tail hrest)
      all_goals simp [truthy] at ht <;> simp_all
    · rw [if_neg ht] at h
      exact Nat.le_succ_of_le (ih ys h)


theorem mzMainAdd_len (d : List (String × PyVal)) :
    (mzMainAdd d).2.length ≤ 10 := by
  rw [mzMainAdd]
  simp only [apply_ite Prod.snd, apply_ite List.length, List.length_take,
    List.length_nil]
  split_ifs <;> omega

theorem processProperty_some_record (geo : String → GeoResp) (prop : PyVal)
    (st : GeoSt) (r : PyVal) (st2 : GeoSt)
    (h : processProperty geo prop st = (some r, st2)) :
    ∃ (d : List (String × PyVal)) (latV lngV mainF : PyVal)
      (addF : List String) (g : Bool),
      prop = .vdict d ∧ mzImagesStage d = some (mainF, addF) ∧
      r = mzRecord d (dGet d "address" (.vstr "")) latV lngV mainF addF g := by
  rcases prop with _ | b | n | s | xs | d
  case vnone => simp [processProperty] at h
  case vbool => simp [processProperty] at h
  case vnum => simp [processProperty] at h
  case vstr => simp [processProperty] at h
  case vlist => simp [processProperty] at h
  case vdict =>
    rw [processProperty] at h
    rcases hcg : mzCoordsAndGeo geo d st with _ | ⟨⟨latV, lngV⟩, st1⟩ <;>
      simp only [hcg] at h
    · simp at h
    · rcases hbr : mzBuildRecord d (dGet d "address" (.vstr "")) latV lngV
        with _ | r0 <;> simp only [hbr] at h
      · simp at h
      · simp at h
        rw [mzBuildRecord] at hbr
        rcases himg : mzImagesStage d with _ | ⟨mainF, addF⟩ <;>
          simp only [himg] at hbr
        · simp at hbr
        · rcases hg : pyGtZero (dGet d "parking" (.vnum 0)) with _ | g <;>
            simp only [hg] at hbr
          · simp at hbr
          · simp at hbr
            exact ⟨d, latV, lngV, mainF, addF, g, rfl, himg,
              by rw [← h.1, ← hbr]⟩

/-- C8, counterexample.  For mendozaprop, an item with a direct `image`
also listed first in `images` emits a record whose `additional_images`
contains the `image` value (duplication the claim rules out); and the
inmoup embedded-JSON path emits 11 additional images from 11 gallery
photos (no cap at all, against the claimed fixed per-record maximum,
which is 10 in the codebase). -/
theorem c8_counterexample :
    getField ((processProperty noGeo c8MzProp ⟨[], 0⟩).1.getD .vnone) "image"
      = .vstr "https://www.mendozaprop.com/a.jpg" ∧
    getField ((processProperty noGeo c8MzProp ⟨[], 0⟩).1.getD .vnone)
        "additional_images"
      = .vlist [.vstr "https://www.mendozaprop.com/a.jpg",
                .vstr "https://www.mendozaprop.com/b.jpg"] ∧
    getField ((processProperty noGeo c8MzProp ⟨[], 0⟩).1.getD .vnone) "image"
      ∈ (match getField ((processProperty noGeo c8MzProp ⟨[], 0⟩).1.getD .vnone)
            "additional_images" with
         | .vlist xs => xs
         | _ => []) ∧
    (match getField ((inmoupJsonRecord c8InProp).getD .vnone)
        "additional_images" with
     | .vlist xs => xs.length
     | _ => 0) = 11 :=
  ⟨rfl, rfl, List.mem_cons_self _ _, rfl⟩

/-- C8, amended: only the mendozaprop client caps `additionalImages`
(at 10 per record), and even there the list may contain
`primaryImage`'s value; the inmoup client applies no per-record cap and
no exclusion of the primary image. -/
theorem c8_mendozaprop_cap :
    ∀ (geo : String → GeoResp) (prop : PyVal) (st : GeoSt) (r : PyVal)
      (st2 : GeoSt), processProperty geo prop st = (some r, st2) →
    ∃ xs : List String,
      getField r "additional_images" = .vlist (xs.map PyVal.vstr) ∧
      xs.length ≤ 10 := by
  intro geo prop st r st2 h
  obtain ⟨d, latV, lngV, mainF, addF, g, -, himg, hr⟩ :=
    processProperty_some_record geo prop st r st2 h
  refine ⟨addF, ?_, ?_⟩
  · rw [hr]
    simp [mzRecord, getField, dGet]
  · rw [mzImagesStage] at himg
    rcases hm : mzAbsMain (mzNormalizeMain (mzMainAdd d).1) with _ | mf <;>
      rw [hm] at himg
    · simp at himg
    · rcases ha : mzAbsList (mzMainAdd d).2 with _ | af <;> rw [ha] at himg
      · simp at himg
      · simp at himg
        rw [← himg.2]
        exact le_trans (mzAbsList_length _ af ha) (mzMainAdd_len d)

/-- C8, witness for the amended cap at a concrete item. -/
theorem c8_witness :
    ∃ xs : List String,
      getField ((processProperty noGeo c8MzProp ⟨[], 0⟩).1.getD .vnone)
          "additional_images" = .vlist (xs.map PyVal.vstr) ∧
      xs.length ≤ 10 :=
  c8_mendozaprop_cap noGeo c8MzProp ⟨[], 0⟩
    ((processProperty noGeo c8MzProp ⟨[], 0⟩).1.getD .vnone)
    (processProperty noGeo c8MzProp ⟨[], 0⟩).2 (by rfl)

/-! ## Claim C3 -/

theorem dGet_eq_dFind (d : List (String × PyVal)) (k : String) (v : PyVal) :
    dGet d k v = (dFind d k).getD v := by
  induction d with
  | nil => simp [dGet, dFind]
  | cons p rest ih =>
    obtain ⟨pk, pv⟩ := p
    by_cases h : pk = k <;> simp [dGet, dFind, h, ih]

theorem inmoupJsonRecord_some {d : List (String × PyVal)} {r : PyVal}
    (h : inmoupJsonRecord (.vdict d) = some r) :
    ∃ (mainImage : String) (addImgs : List String),
      r = .vdict [
        ("price", dGet d "precio" (.vstr "")),
        ("direccion", .vstr (pyStr (dGet d "calle" (.vstr "")) ++ ", " ++
          pyStr (dGet d "localidad" (.vstr "")))),
        ("image", .vstr mainImage),
        ("additional_images", .vlist (addImgs.map PyVal.vstr)),
        ("habitaciones", .vstr (pyStr (dGet d "cant_habitaciones" (.vstr "")))),
        ("supTotal", .vstr (pyStr (dGet d "sup_total" (.vstr "")))),
        ("supCub", .vstr (pyStr (dGet d "sup_cubierta" (.vstr "")))),
        ("garage", .vbool (truthy (dGet d "garage" (.vbool false)))),
        ("banos", .vstr (pyStr (dGet d "cant_banos" (.vstr "")))),
        ("url", .vstr ("https://inmoup.com.ar" ++ pyStr (dGet d "url" (.vstr "")))),
        ("kid", .vstr (pyStr (dGet d "id" (.vstr "")))),
        ("hasgeolocation", .vstr
          (if truthy (dGet d "lat" .vnone) && truthy (dGet d "lng" .vnone)
           then "true" else "false")),
        ("latitude", .vstr (pyStr (dGet d "lat" (.vstr "")))),
        ("longitude", .vstr (pyStr (dGet d "lng" (.vstr "")))),
        ("source", .vstr "inmoup")] := by
  rw [inmoupJsonRecord] at h
  rcases hf : fixImageUrl (dGet d "foto_portada" (.vstr "")) with _ | mainImage <;>
    simp only [hf] at h
  · simp at h
  · rcases hi : pyIter (dGet d "fotos" (.vlist [])) with _ | fotos <;>
      simp only [hi] at h
    · simp at h
    · rcases hA : inmoupAdditional fotos with _ | addImgs <;> simp only [hA] at h
      · simp at h
      · injection h with h2
        exact ⟨mainImage, addImgs, h2.symm⟩

/-- C3, counterexample.  A DOM-scraped inmoup record copies the page's
`hasgeolocation` attribute verbatim: an article with non-empty `lat`
and `lng` attributes and an empty `hasgeolocation` attribute produces a
record with non-empty latitude/longitude whose `hasgeolocation` is the
(falsy, non-"true") empty string.  And a mendozaprop record geocoded
from a response whose `lat` is the number 0 gets latitude `"0"`
(non-empty) with `hasgeolocation = false`. -/
theorem c3_counterexample :
    inmoupGetBuildings c3InmoupEnv = .ok [inmoupDomRecord c3Article] ∧
    getField (inmoupDomRecord c3Article) "latitude" = .vstr "-32.9" ∧
    getField (inmoupDomRecord c3Article) "longitude" = .vstr "-68.8" ∧
    getField (inmoupDomRecord c3Article) "hasgeolocation" = .vstr "" ∧
    truthy (getField (inmoupDomRecord c3Article) "hasgeolocation") = false ∧
    getField ((processProperty c3ZeroGeo c3MzProp ⟨[], 0⟩).1.getD .vnone)
      "latitude" = .vstr "0" ∧
    getField ((processProperty c3ZeroGeo c3MzProp ⟨[], 0⟩).1.getD .vnone)
      "longitude" = .vstr "-68.8" ∧
    getField ((processProperty c3ZeroGeo c3MzProp ⟨[], 0⟩).1.getD .vnone)
      "hasgeolocation" = .vbool false :=
  ⟨rfl, rfl, rfl, rfl, rfl, rfl, rfl, rfl⟩

/-- C3, amended: the `hasGeolocation` invariant holds in a
truthiness-based, path-dependent form.  (1) A mendozaprop record whose
resolved coordinates are strings has `hasgeolocation` (a boolean) true
iff latitude and longitude are non-empty, and carries exactly those
strings.  (2) An inmoup embedded-JSON record whose raw `lat`/`lng`
fields are strings-or-absent has `hasgeolocation = "true"` iff its
latitude and longitude are non-empty.  (3) A DOM-scraped inmoup record
copies the page's `hasgeolocation` attribute verbatim, with no relation
to latitude/longitude. -/
theorem c3_amended :
    (∀ (geo : String → GeoResp) (d : List (String × PyVal)) (st st1 st2 : GeoSt)
       (r : PyVal) (la lo : String),
      mzCoordsAndGeo geo d st = some ((.vstr la, .vstr lo), st1) →
      processProperty geo (.vdict d) st = (some r, st2) →
      getField r "hasgeolocation" = .vbool ((la != "") && (lo != "")) ∧
      getField r "latitude" = .vstr la ∧ getField r "longitude" = .vstr lo) ∧
    (∀ (d : List (String × PyVal)) (r : PyVal),
      inmoupJsonRecord (.vdict d) = some r →
      strOrAbsent d "lat" → strOrAbsent d "lng" →
      (getField r "hasgeolocation" = .vstr "true" ↔
        (getField r "latitude" ≠ .vstr "" ∧ getField r "longitude" ≠ .vstr ""))) ∧
    (∀ a : Article, getField (inmoupDomRecord a) "hasgeolocation"
      = .vstr (sGet a.attrs "hasgeolocation" "")) := by
  refine ⟨?_, ?_, ?_⟩
  · intro geo d st st1 st2 r la lo hcg h
    rw [processProperty] at h
    simp only [hcg] at h
    rcases hbr : mzBuildRecord d (dGet d "address" (.vstr "")) (.vstr la)
        (.vstr lo) with _ | r0 <;> simp only [hbr] at h
    · simp at h
    · simp at h
      rw [mzBuildRecord] at hbr
      rcases himg : mzImagesStage d with _ | ⟨mainF, addF⟩ <;>
        simp only [himg] at hbr
      · simp at hbr
      · rcases hg : pyGtZero (dGet d "parking" (.vnum 0)) with _ | g <;>
          simp only [hg] at hbr
        · simp at hbr
        · simp at hbr
          rw [← h.1, ← hbr]
          simp [mzRecord, getField, dGet, truthy, pyStr]
  · intro d r h hlat hlng
    obtain ⟨mainImage, addImgs, hr⟩ := inmoupJsonRecord_some h
    subst hr
    rcases hf1 : dFind d "lat" with _ | x1
    · rcases hf2 : dFind d "lng" with _ | x2
      · simp [getField, dGet, dGet_eq_dFind, hf1, hf2, truthy, pyStr]
      · obtain ⟨s2, rfl⟩ := hlng x2 hf2
        simp [getField, dGet, dGet_eq_dFind, hf1, hf2, truthy, pyStr]
    · obtain ⟨s1, rfl⟩ := hlat x1 hf1
      rcases hf2 : dFind d "lng" with _ | x2
      · simp [getField, dGet, dGet_eq_dFind, hf1, hf2, truthy, pyStr]
      · obtain ⟨s2, rfl⟩ := hlng x2 hf2
        simp [getField, dGet, dGet_eq_dFind, hf1, hf2, truthy, pyStr]
  · intro a
    simp [inmoupDomRecord, getField, dGet]

/-- C3, witness for the amended statements at concrete inputs. -/
theorem c3_witness :
    getField ((processProperty noGeo
        (.vdict [("coords", .vdict [("lat", .vstr "-32.9"), ("lng", .vstr "-68.8")])])
        ⟨[], 0⟩).1.getD .vnone) "hasgeolocation" = .vbool true ∧
    (getField ((inmoupJsonRecord
        (.vdict [("lat", .vstr "1"), ("lng", .vstr "2")])).getD .vnone)
      "hasgeolocation" = .vstr "true" ↔
      (getField ((inmoupJsonRecord
          (.vdict [("lat", .vstr "1"), ("lng", .vstr "2")])).getD .vnone)
        "latitude" ≠ .vstr "" ∧
       getField ((inmoupJsonRecord
          (.vdict [("lat", .vstr "1"), ("lng", .vstr "2")])).getD .vnone)
        "longitude" ≠ .vstr "")) := by
  constructor
  · have h := (c3_amended.1 noGeo
      [("coords", .vdict [("lat", .vstr "-32.9"), ("lng", .vstr "-68.8")])]
      ⟨[], 0⟩ ⟨[], 0⟩
      (processProperty noGeo
        (.vdict [("coords", .vdict [("lat", .vstr "-32.9"), ("lng", .vstr "-68.8")])])
        ⟨[], 0⟩).2
      ((processProperty noGeo
        (.vdict [("coords", .vdict [("lat", .vstr "-32.9"), ("lng", .vstr "-68.8")])])
        ⟨[], 0⟩).1.getD .vnone)
      "-32.9" "-68.8" rfl (by rfl)).1
    rw [h]
    rfl
  · exact c3_amended.2.1 [("lat", .vstr "1"), ("lng", .vstr "2")]
      ((inmoupJsonRecord (.vdict [("lat", .vstr "1"), ("lng", .vstr "2")])).getD .vnone)
      (by rfl)
      (fun x hx => ⟨"1", by simp [dFind] at hx; exact hx.symm⟩)
      (fun x hx => ⟨"2", by simp [dFind] at hx; exact hx.symm⟩)

/-! ## Claim C1 -/

theorem inmoupGetBuildings_status (env : InmoupEnv) :
    (∃ l, inmoupGetBuildings env = .ok l) ∨
      inmoupGetBuildings env = .error 500 := by
  rw [inmoupGetBuildings]
  rcases hh : env.httpx with _ | page <;> simp only [hh]
  · rw [inmoupPlaywrightWrapped]
    by_cases h : env.pw.launchOk && env.pw.gotoOk <;> simp [h]
  · rcases hm : missingImagesQ (inmoupHttpxExtract page) with _ | m <;>
      simp only [hm]
    · rw [inmoupPlaywrightWrapped]
      by_cases h : env.pw.launchOk && env.pw.gotoOk <;> simp [h]
    · left
      by_cases h : m && !(inmoupHttpxExtract page).isEmpty <;> simp [h]

theorem mzGetBuildings_status (env : MzEnv) :
    (∃ l, mzGetBuildings env = .ok l) ∨ mzGetBuildings env = .error 500 := by
  rw [mzGetBuildings]
  by_cases h : (mzLoop env.pages env.retries 5 0 0).fatal <;> simp [h]

/-- C1, counterexample.  When the inmoup httpx tactic fails and the
playwright launch fails too — or when a mendozaprop page request and
its SSL-disabled retry both fail — the boundary error is
`HTTPException(500)` (the scrapers' blanket handlers re-wrap their own
internal 503s), not one of the claimed 400/502/503/504 classes. -/
theorem c1_counterexample :
    getListings "inmoup" c1InmoupEnv c1MzEnv = .error 500 ∧
    getListings "mendozaprop" c1InmoupEnv c1MzEnv = .error 500 ∧
    (500 : Nat) ≠ 400 ∧ (500 : Nat) ≠ 502 ∧ (500 : Nat) ≠ 503 ∧
    (500 : Nat) ≠ 504 :=
  ⟨rfl, rfl, by decide, by decide, by decide, by decide⟩

/-- C1, amended: every call of the pipeline entry point returns either
a (possibly empty) record list, or a 400 (unknown source — exactly when
the lower-cased sourceId is not registered), or a 500 (any source
failure; the scrapers re-wrap all internal errors, including their own
503s, into `HTTPException(500)`); 502/503/504 never cross the
boundary. -/
theorem c1_boundary_statuses :
    ∀ (source : String) (ienv : InmoupEnv) (menv : MzEnv),
      ((∃ l, getListings source ienv menv = .ok l) ∨
        getListings source ienv menv = .error 400 ∨
        getListings source ienv menv = .error 500) ∧
      (getListings source ienv menv = .error 400 ↔
        regGet defaultRegistry (scraperKey source) = none) := by
  intro source ienv menv
  have hmain : getListings source ienv menv =
      match getScraper defaultRegistry source with
      | .error e => .error e
      | .ok .inmoup => inmoupGetBuildings ienv
      | .ok .mendozaprop => mzGetBuildings menv := rfl
  rw [hmain, getScraper]
  rcases hreg : regGet defaultRegistry (scraperKey source) with _ | tag
  · exact ⟨Or.inr (Or.inl rfl), by simp⟩
  · rcases tag
    · refine ⟨?_, ?_⟩
      · rcases inmoupGetBuildings_status ienv with ⟨l, hl⟩ | h
        · exact Or.inl ⟨l, hl⟩
        · exact Or.inr (Or.inr h)
      · simp only []
        constructor
        · intro h
          rcases inmoupGetBuildings_status ienv with ⟨l, hl⟩ | hl <;>
            rw [hl] at h <;> simp at h
        · intro h
          simp at h
    · refine ⟨?_, ?_⟩
      · rcases mzGetBuildings_status menv with ⟨l, hl⟩ | h
        · exact Or.inl ⟨l, hl⟩
        · exact Or.inr (Or.inr h)
      · constructor
        · intro h
          rcases mzGetBuildings_status menv with ⟨l, hl⟩ | hl <;>
            rw [hl] at h <;> simp at h
        · intro h
          simp at h

/-! ## Claim C10 -/

theorem pwRecord_eq (e : PwElement) (hE : e.raises = false) :
    pwRecord e = some (.vdict [
      ("price", .vstr (sGet e.attrs "precio" "")),
      ("direccion", .vstr ((e.propertyDataText.getD "").replace "\n\n" ", ")),
      ("image", .vstr (match e.imgElem with
        | some (some s) => fixImageUrlStr s
        | _ => "")),
      ("additional_images", .vlist
        ((if (pwAdditional e.fotosFicha).isEmpty
          then pwAdditional e.itemscopePhotos
          else pwAdditional e.fotosFicha).map PyVal.vstr)),
      ("habitaciones", .vstr (sGet e.attrs "ser_1" "")),
      ("supTotal", .vstr (sGet e.attrs "sup_t" "")),
      ("supCub", .vstr (sGet e.attrs "sup_c" "")),
      ("garage", .vstr (sGet e.attrs "ser_3" "")),
      ("banos", .vstr (sGet e.attrs "ser_2" "")),
      ("url", .vstr ("https://inmoup.com.ar" ++ (match e.contPhoto with
        | some (some h) => h
        | some none => "None"
        | none => ""))),
      ("kid", .vstr (sGet e.attrs "kid" "")),
      ("hasgeolocation", .vstr (sGet e.attrs "hasgeolocation" "")),
      ("latitude", .vstr (sGet e.attrs "lat" "")),
      ("longitude", .vstr (sGet e.attrs "lng" "")),
      ("source", .vstr "inmoup")]) := by
  rw [pwRecord]
  simp only [hE, Bool.false_eq_true, if_false]

theorem getField_applyImageMap (m : List (String × EnhVal)) (bs : List PyVal)
    (key : String) (h1 : key ≠ "image") (h2 : key ≠ "additional_images") :
    ∀ r ∈ applyImageMap m bs, ∃ b ∈ bs, getField r key = getField b key := by
  intro r hr
  rw [applyImageMap] at hr
  obtain ⟨b, hb, rfl⟩ := List.mem_map.mp hr
  refine ⟨b, hb, ?_⟩
  rcases b with _ | _ | _ | _ | _ | d
  case vdict =>
    rcases hk : dGet d "kid" (.vstr "") with _ | b0 | n0 | k | l0 | d0
    · simp [hk]
    · simp [hk]
    · simp [hk]
    · simp only [hk]
      rcases hg : mapGet m k with _ | v
      · simp [hg]
      · rcases v with s | ⟨main, adds⟩
        · simp only [hg]
          show getField (.vdict (dSet d "image" (.vstr s))) key
            = getField (.vdict d) key
          simp [getField, dGet_dSet, h1]
        · simp only [hg]
          show getField (.vdict (dSet (dSet d "image" main.toMain)
              "additional_images" (.vlist (adds.map PyVal.vstr)))) key
            = getField (.vdict d) key
          simp [getField, dGet_dSet, h1, h2]
    · simp [hk]
    · simp [hk]
  all_goals rcases hg : mapGet m "" with _ | (s | ⟨main, adds⟩) <;> simp [hg]

theorem enhance_mem (bs : List PyVal) (env : EnhEnv) (key : String)
    (h1 : key ≠ "image") (h2 : key ≠ "additional_images") :
    ∀ r ∈ enhanceWithPlaywrightImages bs env,
      ∃ b ∈ bs, getField r key = getField b key := by
  intro r hr
  rw [enhanceWithPlaywrightImages] at hr
  by_cases hb : bs.isEmpty
  · simp [hb] at hr
  · simp only [hb, if_false] at hr
    by_cases hl : env.launchOk
    · by_cases hg : env.gotoOk
      · simp only [hl, hg] at hr
        exact getField_applyImageMap _ bs key h1 h2 r hr
      · simp only [hl, hg] at hr
        exact ⟨r, hr, rfl⟩
    · simp only [hl] at hr
      exact ⟨r, hr, rfl⟩

theorem inmoupHttpxExtract_hasgeo (page : InmoupPage) :
    ∀ r ∈ inmoupHttpxExtract page,
      ∃ s, getField r "hasgeolocation" = .vstr s := by
  intro r hr
  rw [inmoupHttpxExtract] at hr
  by_cases he : ((page.propertiesData.getD []).filterMap inmoupJsonRecord).isEmpty <;>
    simp only [he, if_true, if_false] at hr
  · obtain ⟨a, ha, rfl⟩ := List.mem_map.mp hr
    exact ⟨sGet a.attrs "hasgeolocation" "",
      by simp [inmoupDomRecord, getField, dGet]⟩
  · obtain ⟨prop, hp, hjr⟩ := List.mem_filterMap.mp hr
    rcases prop with _ | _ | _ | _ | _ | d
    · simp [inmoupJsonRecord] at hjr
    · simp [inmoupJsonRecord] at hjr
    · simp [inmoupJsonRecord] at hjr
    · simp [inmoupJsonRecord] at hjr
    · simp [inmoupJsonRecord] at hjr
    · obtain ⟨mainImage, addImgs, rfl⟩ := inmoupJsonRecord_some hjr
      exact ⟨if truthy (dGet d "lat" .vnone) && truthy (dGet d "lng" .vnone)
          then "true" else "false",
        by by_cases hl : truthy (dGet d "lat" .vnone) &&
            truthy (dGet d "lng" .vnone) <;> simp [getField, dGet, hl]⟩

theorem processAll_mem (geo : String → GeoResp) :
    ∀ (props : List PyVal) (st : GeoSt) (r : PyVal),
      r ∈ processAll geo props st →
      ∃ (p : PyVal) (st1 st2 : GeoSt),
        processProperty geo p st1 = (some r, st2) := by
  intro props
  induction props with
  | nil => intro st r hr; simp [processAll] at hr
  | cons p rest ih =>
    intro st r hr
    rw [processAll] at hr
    rcases hp : processProperty geo p st with ⟨orr, st1⟩
    rw [hp] at hr
    rcases orr with _ | r0
    · exact ih st1 r hr
    · rcases List.mem_cons.mp hr with rfl | hr2
      · exact ⟨p, st, st1, hp⟩
      · exact ih st1 r hr2

/-- C10: the type of `hasgeolocation` is not uniform.  Every record the
inmoup client emits carries a *string* there: the literal `"true"` or
`"false"` on the embedded-JSON path, and the raw page attribute text on
the DOM-scraping and playwright paths (the enhancement pass leaves the
field untouched).  Every record the mendozaprop client emits carries a
*boolean*. -/
theorem c10_hasgeolocation_types :
    (∀ (env : InmoupEnv) (bs : List PyVal), inmoupGetBuildings env = .ok bs →
      ∀ r ∈ bs, ∃ s, getField r "hasgeolocation" = .vstr s) ∧
    (∀ prop r : PyVal, inmoupJsonRecord prop = some r →
      getField r "hasgeolocation" = .vstr "true" ∨
        getField r "hasgeolocation" = .vstr "false") ∧
    (∀ e : PwElement, ∀ r : PyVal, pwRecord e = some r →
      getField r "hasgeolocation" = .vstr (sGet e.attrs "hasgeolocation" "")) ∧
    (∀ (menv : MzEnv) (bs : List PyVal), mzGetBuildings menv = .ok bs →
      ∀ r ∈ bs, ∃ b : Bool, getField r "hasgeolocation" = .vbool b) := by
  have hpw : ∀ (elems : List PwElement) (r : PyVal),
      r ∈ elems.filterMap pwRecord →
      ∃ s, getField r "hasgeolocation" = .vstr s := by
    intro elems r hr
    obtain ⟨e, he, hpe⟩ := List.mem_filterMap.mp hr
    rcases hE : e.raises
    · rw [pwRecord_eq e hE] at hpe
      injection hpe with hpe
      exact ⟨sGet e.attrs "hasgeolocation" "",
        by rw [← hpe]; simp [getField, dGet]⟩
    · rw [pwRecord, if_pos hE] at hpe
      cases hpe
  refine ⟨?_, ?_, ?_, ?_⟩
  · intro env bs h r hr
    rw [inmoupGetBuildings] at h
    rcases hh : env.httpx with _ | page <;> simp only [hh] at h
    · rw [inmoupPlaywrightWrapped] at h
      by_cases hok : env.pw.launchOk && env.pw.gotoOk <;> simp [hok] at h
      subst h
      exact hpw env.pw.elements r hr
    · rcases hm : missingImagesQ (inmoupHttpxExtract page) with _ | m <;>
        simp only [hm] at h
      · rw [inmoupPlaywrightWrapped] at h
        by_cases hok : env.pw.launchOk && env.pw.gotoOk <;> simp [hok] at h
        subst h
        exact hpw env.pw.elements r hr
      · by_cases hc : m && !(inmoupHttpxExtract page).isEmpty <;>
          simp only [hc, if_true, if_false] at h
        · injection h with h
          subst h
          obtain ⟨b, hbmem, heq⟩ := enhance_mem (inmoupHttpxExtract page)
            env.enh "hasgeolocation" (by decide) (by decide) r hr
          obtain ⟨s, hs⟩ := inmoupHttpxExtract_hasgeo page b hbmem
          exact ⟨s, heq.trans hs⟩
        · injection h with h
          subst h
          exact inmoupHttpxExtract_hasgeo page r hr
  · intro prop r h
    rcases prop with _ | _ | _ | _ | _ | d
    case vdict =>
      obtain ⟨mainImage, addImgs, rfl⟩ := inmoupJsonRecord_some h
      by_cases hl : truthy (dGet d "lat" .vnone) && truthy (dGet d "lng" .vnone) <;>
        simp [getField, dGet, hl]
    all_goals simp [inmoupJsonRecord] at h
  · intro e r h
    rcases hE : e.raises
    · rw [pwRecord_eq e hE] at h
      injection h with h
      rw [← h]
      simp [getField, dGet]
    · rw [pwRecord, if_pos hE] at h
      cases h
  · intro menv bs h r hr
    rw [mzGetBuildings] at h
    by_cases hf : (mzLoop menv.pages menv.retries 5 0 0).fatal <;>
      simp only [hf, if_true, if_false] at h
    · cases h
    · injection h with h
      subst h
      obtain ⟨p, st1, st2, hp⟩ := processAll_mem menv.geo _ _ r hr
      obtain ⟨d, latV, lngV, mainF, addF, g, -, -, rfl⟩ :=
        processProperty_some_record menv.geo p st1 r st2 hp
      exact ⟨truthy latV && truthy lngV, by simp [mzRecord, getField, dGet]⟩

/-- C10, witness: a DOM-scraped record carries a string
`hasgeolocation`, a mendozaprop record a boolean one. -/
theorem c10_witness :
    (∃ s, getField (inmoupDomRecord c10Article) "hasgeolocation" = .vstr s) ∧
    (∃ b : Bool, getField
      ((processAll noGeo [.vdict [("id", .vnum 3)]] ⟨[], 0⟩).headD .vnone)
      "hasgeolocation" = .vbool b) := by
  constructor
  · exact c10_hasgeolocation_types.1 c10InEnv [inmoupDomRecord c10Article] rfl
      (inmoupDomRecord c10Article) (List.mem_cons_self _ _)
  · exact c10_hasgeolocation_types.2.2.2 c10MzEnv
      (processAll noGeo [.vdict [("id", .vnum 3)]] ⟨[], 0⟩) rfl
      ((processAll noGeo [.vdict [("id", .vnum 3)]] ⟨[], 0⟩).headD .vnone)
      (List.mem_cons_self _ _)
/-! ## Claim C4 -/

theorem charPrefix_append (p : List Char) :
    ∀ (x s : List Char), p.isPrefixOf x = true → p.isPrefixOf (x ++ s) = true := by
  induction p with
  | nil => intro x s h; simp [List.isPrefixOf]
  | cons c cs ih =>
    intro x s h
    cases x with
    | nil => simp [List.isPrefixOf] at h
    | cons d ds =>
      simp only [List.isPrefixOf, List.cons_append, Bool.and_eq_true, beq_iff_eq] at h ⊢
      exact ⟨h.1, ih ds s h.2⟩

theorem pyStartsWith_mono (x s p : String) (h : pyStartsWith x p = true) :
    pyStartsWith (x ++ s) p = true := by
  simp only [pyStartsWith, String.data_append] at h ⊢
  exact charPrefix_append _ _ _ h

theorem absUrl_inmoupPrefixed (s : String) :
    absUrl ("https://inmoup.com.ar" ++ s) :=
  Or.inr (pyStartsWith_mono "https://inmoup.com.ar" s "https://" (by decide))

theorem absUrl_mendozaPrefix (s : String) : absUrl (mendozaPrefix s) := by
  rw [mendozaPrefix]
  exact Or.inr (pyStartsWith_mono "https://www.mendozaprop.com" _ "https://" (by decide))

theorem fixImageUrlStr_abs (s : String) (h : s ≠ "") : absUrl (fixImageUrlStr s) := by
  rw [fixImageUrlStr, if_neg h]
  by_cases hs : (pyStartsWith s "http://" || pyStartsWith s "https://") = true
  · rw [if_pos hs]
    exact Bool.or_eq_true _ _ |>.mp hs
  · rw [if_neg hs]
    exact absUrl_inmoupPrefixed s

theorem fixImageUrlStr_ok (s : String) :
    fixImageUrlStr s = "" ∨ absUrl (fixImageUrlStr s) := by
  by_cases h : s = ""
  · subst h
    exact Or.inl rfl
  · exact Or.inr (fixImageUrlStr_abs s h)

theorem imageValOk_fix (s : String) : imageValOk (.vstr (fixImageUrlStr s)) := by
  rcases fixImageUrlStr_ok s with h | h
  · exact Or.inl (by rw [h]; rfl)
  · exact Or.inr ⟨_, rfl, h⟩

theorem fixImageUrlStr_id (s : String) :
    fixImageUrlStr s = s ↔
      (s = "" ∨ pyStartsWith s "http://" = true ∨ pyStartsWith s "https://" = true) := by
  constructor
  · intro h
    by_cases h0 : s = ""
    · exact Or.inl h0
    by_cases hs : (pyStartsWith s "http://" || pyStartsWith s "https://") = true
    · exact Or.inr (Bool.or_eq_true _ _ |>.mp hs)
    · exfalso
      rw [fixImageUrlStr, if_neg h0, if_neg hs] at h
      have hl := congrArg String.length h
      rw [String.length_append] at hl
      have : ("https://inmoup.com.ar" : String).length = 21 := rfl
      omega
  · intro h
    by_cases h0 : s = ""
    · subst h0; rfl
    rcases h with h | h | h
    · exact absurd h h0
    · rw [fixImageUrlStr, if_neg h0, if_pos (by rw [h]; rfl)]
    · rw [fixImageUrlStr, if_neg h0, if_pos (by rw [h]; simp)]

theorem mzAbsMain_id (s : String) (h : s ≠ "") :
    mzAbsMain (.vstr s) = some (.vstr s) ↔
      (pyStartsWith s "http://" = true ∨ pyStartsWith s "https://" = true) := by
  have ht : truthy (.vstr s) = true := by simp [truthy, h]
  rw [mzAbsMain, if_pos ht]
  constructor
  · intro he
    by_cases hs : (pyStartsWith s "http://" || pyStartsWith s "https://") = true
    · exact Bool.or_eq_true _ _ |>.mp hs
    · exfalso
      rw [if_neg hs] at he
      injection he with he
      injection he with he
      have hl := congrArg String.length he
      rw [mendozaPrefix, String.length_append] at hl
      have h27 : ("https://www.mendozaprop.com" : String).length = 27 := rfl
      by_cases hsl : pyStartsWith s "/" = true
      · rw [if_pos hsl] at hl; omega
      · rw [if_neg hsl, String.length_append] at hl
        have h1 : ("/" : String).length = 1 := rfl
        omega
  · intro hs
    rw [if_pos (by rcases hs with h1 | h1 <;> simp [h1])]

theorem mzAbsMain_good (v mainF : PyVal) (h : mzAbsMain v = some mainF) :
    imageValOk mainF := by
  by_cases ht : truthy v = true
  · rcases v with _ | b | n | s | l | d <;> simp only [mzAbsMain, if_pos ht] at h
    · cases h
    · cases h
    · cases h
    · injection h with h
      subst h
      right
      refine ⟨_, rfl, ?_⟩
      by_cases hs : (pyStartsWith s "http://" || pyStartsWith s "https://") = true
      · rw [if_pos hs]
        exact Bool.or_eq_true _ _ |>.mp hs
      · rw [if_neg hs]
        exact absUrl_mendozaPrefix s
    · cases h
    · cases h
  · rcases v with _ | b | n | s | l | d <;> simp only [mzAbsMain, if_neg ht] at h <;>
      (injection h with h; subst h; exact Or.inl (by simpa using ht))

theorem mzAbsList_good : ∀ (l : List PyVal) (addF : List String),
    mzAbsList l = some addF → ∀ u ∈ addF, absUrl u := by
  intro l
  induction l with
  | nil =>
    intro addF h u hu
    rw [mzAbsList] at h
    injection h with h
    subst h
    cases hu
  | cons img rest ih =>
    intro addF h u hu
    rcases img with _ | b | n | s | xs | d
    case vstr =>
      simp only [mzAbsList] at h
      by_cases ht : truthy (.vstr s) = true
      · rw [if_pos ht] at h
        rcases htail : mzAbsList rest with _ | tail <;> simp only [htail] at h
        · cases h
        · injection h with h
          subst h
          rcases List.mem_cons.mp hu with rfl | hu2
          · by_cases hs : (pyStartsWith s "http://" || pyStartsWith s "https://") = true
            · rw [if_pos hs]
              exact Bool.or_eq_true _ _ |>.mp hs
            · rw [if_neg hs]
              exact absUrl_mendozaPrefix s
          · exact ih tail htail u hu2
      · rw [if_neg ht] at h
        exact ih addF h u hu
    all_goals
      simp only [mzAbsList] at h
    case vnone =>
      rw [if_neg (by simp [truthy])] at h
      exact ih addF h u hu
    case vbool =>
      rcases b with _ | _
      · rw [if_neg (by simp [truthy])] at h
        exact ih addF h u hu
      · rw [if_pos (by simp [truthy])] at h
        cases h
    case vnum =>
      by_cases hn : n = 0
      · rw [if_neg (by simp [truthy, hn])] at h
        exact ih addF h u hu
      · rw [if_pos (by simp [truthy, hn])] at h
        cases h
    case vlist =>
      by_cases hn : xs.isEmpty
      · rw [if_neg (by simp [truthy, hn])] at h
        exact ih addF h u hu
      · rw [if_pos (by simp [truthy, hn])] at h
        cases h
    case vdict =>
      by_cases hn : d.isEmpty
      · rw [if_neg (by simp [truthy, hn])] at h
        exact ih addF h u hu
      · rw [if_pos (by simp [truthy, hn])] at h
        cases h

theorem mzImagesStage_good (d : List (String × PyVal)) (mainF : PyVal)
    (addF : List String) (h : mzImagesStage d = some (mainF, addF)) :
    imageValOk mainF ∧ ∀ u ∈ addF, absUrl u := by
  rw [mzImagesStage] at h
  rcases hm : mzAbsMain (mzNormalizeMain (mzMainAdd d).1) with _ | mF <;>
    simp only [hm] at h
  · cases h
  · rcases ha : mzAbsList (mzMainAdd d).2 with _ | aF <;> simp only [ha] at h
    · cases h
    · injection h with h
      injection h with h1 h2
      subst h1
      subst h2
      exact ⟨mzAbsMain_good _ _ hm, mzAbsList_good _ _ ha⟩

theorem processProperty_imageOk (geo : String → GeoResp) (p : PyVal) (st : GeoSt)
    (r : PyVal) (st2 : GeoSt) (h : processProperty geo p st = (some r, st2)) :
    imageFieldsOk r := by
  obtain ⟨d, latV, lngV, mainF, addF, g, -, hst, rfl⟩ :=
    processProperty_some_record geo p st r st2 h
  obtain ⟨h1, h2⟩ := mzImagesStage_good d mainF addF hst
  constructor
  · simpa [mzRecord, getField, dGet] using h1
  · have hf : getField (mzRecord d (dGet d "address" (.vstr "")) latV lngV mainF
        addF g) "additional_images" = .vlist (addF.map PyVal.vstr) := by
      simp [mzRecord, getField, dGet]
    rw [hf]
    intro v hv
    obtain ⟨u, hu, rfl⟩ := List.mem_map.mp hv
    exact Or.inr ⟨u, rfl, h2 u hu⟩

theorem fixImageUrl_ok (v : PyVal) (u : String) (h : fixImageUrl v = some u) :
    u = "" ∨ absUrl u := by
  rcases v with _ | b | n | s | l | d <;> simp only [fixImageUrl] at h
  case vstr =>
    injection h with h
    exact h ▸ fixImageUrlStr_ok s
  all_goals split at h
  all_goals (try cases h)
  all_goals exact Or.inl rfl

theorem inmoupAdditional_good : ∀ (fotos : List PyVal) (l : List String),
    inmoupAdditional fotos = some l → ∀ u ∈ l, absUrl u := by
  intro fotos
  induction fotos with
  | nil =>
    intro l h u hu
    rw [inmoupAdditional] at h
    injection h with h
    subst h
    cases hu
  | cons img rest ih =>
    intro l h u hu
    rw [inmoupAdditional] at h
    rcases hf : fixImageUrl img with _ | fixedImg <;> simp only [hf] at h
    · cases h
    · rcases htl : inmoupAdditional rest with _ | tail <;> simp only [htl] at h
      · cases h
      · injection h with h
        subst h
        by_cases he : fixedImg = ""
        · rw [if_pos he] at hu
          exact ih tail htl u hu
        · rw [if_neg he] at hu
          rcases List.mem_cons.mp hu with rfl | hu2
          · rcases fixImageUrl_ok img u hf with h0 | h0
            · exact absurd h0 he
            · exact h0
          · exact ih tail htl u hu2

theorem inmoupJsonRecord_imageOk (prop r : PyVal)
    (h : inmoupJsonRecord prop = some r) : imageFieldsOk r := by
  rcases prop with _ | b | n | s | l | d <;> simp only [inmoupJsonRecord] at h
  case vdict =>
    rcases hf : fixImageUrl (dGet d "foto_portada" (.vstr "")) with _ | mainImage <;>
      simp only [hf] at h
    · cases h
    · rcases hi : pyIter (dGet d "fotos" (.vlist [])) with _ | fotos <;>
        simp only [hi] at h
      · cases h
      · rcases hA : inmoupAdditional fotos with _ | addImgs <;> simp only [hA] at h
        · cases h
        · injection h with h
          subst h
          constructor
          · have hg : getField (.vdict [
                ("price", dGet d "precio" (.vstr "")),
                ("direccion", .vstr (pyStr (dGet d "calle" (.vstr "")) ++ ", " ++
                  pyStr (dGet d "localidad" (.vstr "")))),
                ("image", .vstr mainImage),
                ("additional_images", .vlist (addImgs.map PyVal.vstr)),
                ("habitaciones", .vstr (pyStr (dGet d "cant_habitaciones" (.vstr "")))),
                ("supTotal", .vstr (pyStr (dGet d "sup_total" (.vstr "")))),
                ("supCub", .vstr (pyStr (dGet d "sup_cubierta" (.vstr "")))),
                ("garage", .vbool (truthy (dGet d "garage" (.vbool false)))),
                ("banos", .vstr (pyStr (dGet d "cant_banos" (.vstr "")))),
                ("url", .vstr ("https://inmoup.com.ar" ++ pyStr (dGet d "url" (.vstr "")))),
                ("kid", .vstr (pyStr (dGet d "id" (.vstr "")))),
                ("hasgeolocation", .vstr
                  (if truthy (dGet d "lat" .vnone) && truthy (dGet d "lng" .vnone)
                   then "true" else "false")),
                ("latitude", .vstr (pyStr (dGet d "lat" (.vstr "")))),
                ("longitude", .vstr (pyStr (dGet d "lng" (.vstr "")))),
                ("source", .vstr "inmoup")]) "image" = .vstr mainImage := by
              simp [getField, dGet]
            rw [hg]
            rcases fixImageUrl_ok _ _ hf with h0 | h0
            · subst h0
              exact Or.inl rfl
            · exact Or.inr ⟨_, rfl, h0⟩
          · intro v hv
            obtain ⟨u, hu, rfl⟩ := List.mem_map.mp hv
            exact Or.inr ⟨u, rfl, inmoupAdditional_good fotos addImgs hA u hu⟩
  all_goals cases h

theorem inmoupDomRecord_imageOk (a : Article) : imageFieldsOk (inmoupDomRecord a) := by
  constructor
  · have hg : getField (inmoupDomRecord a) "image" =
        .vstr (fixImageUrlStr (match a.imgElem with
          | some srcAttr => srcAttr.getD ""
          | none => "")) := by
      simp [inmoupDomRecord, getField, dGet]
    rw [hg]
    exact imageValOk_fix _
  · intro v hv
    have hg : getField (inmoupDomRecord a) "additional_images" = .vlist [] := by
      simp [inmoupDomRecord, getField, dGet]
    rw [hg] at hv
    cases hv

theorem pwAdditional_aux : ∀ (srcs : List (Option String)) (acc : List String),
    (∀ u ∈ acc, absUrl u) →
    ∀ u ∈ srcs.foldl (fun acc srcAttr =>
      match srcAttr with
      | some u => if u = "" then acc
          else if acc.contains (fixImageUrlStr u) then acc
          else acc ++ [fixImageUrlStr u]
      | none => acc) acc, absUrl u := by
  intro srcs
  induction srcs with
  | nil =>
    intro acc hacc u hu
    rw [List.foldl_nil] at hu
    exact hacc u hu
  | cons srcAttr rest ih =>
    intro acc hacc u hu
    rw [List.foldl_cons] at hu
    refine ih _ ?_ u hu
    rcases srcAttr with _ | s
    · exact hacc
    · by_cases h0 : s = ""
      · simpa [h0] using hacc
      · by_cases hc : fixImageUrlStr s ∈ acc
        · simpa [h0, hc] using hacc
        · intro v hv
          simp [h0, hc] at hv
          rcases hv with hv2 | hv2
          · exact hacc v hv2
          · rw [hv2]
            exact fixImageUrlStr_abs s h0

theorem pwAdditional_good (srcs : List (Option String)) :
    ∀ u ∈ pwAdditional srcs, absUrl u := by
  intro u hu
  rw [pwAdditional] at hu
  exact pwAdditional_aux srcs [] (by intro v hv; cases hv) u hu

theorem enhAdditional_aux : ∀ (srcs : List (Option String)) (acc : List String),
    (∀ u ∈ acc, absUrl u) →
    ∀ u ∈ srcs.foldl (fun acc srcAttr =>
      match srcAttr with
      | some u =>
        if u = "" then acc
        else if containsSubstr u placeholderPath then acc
        else acc ++ [fixImageUrlStr u]
      | none => acc) acc, absUrl u := by
  intro srcs
  induction srcs with
  | nil =>
    intro acc hacc u hu
    rw [List.foldl_nil] at hu
    exact hacc u hu
  | cons srcAttr rest ih =>
    intro acc hacc u hu
    rw [List.foldl_cons] at hu
    refine ih _ ?_ u hu
    rcases srcAttr with _ | s
    · exact hacc
    · by_cases h0 : s = ""
      · simpa [h0] using hacc
      · by_cases hc : containsSubstr s placeholderPath = true
        · simpa [h0, hc] using hacc
        · intro v hv
          simp only [h0, hc, if_false] at hv
          rcases List.mem_append.mp hv with hv2 | hv2
          · exact hacc v hv2
          · rw [List.mem_singleton.mp hv2]
            exact fixImageUrlStr_abs s h0

theorem enhAdditional_good (srcs : List (Option String)) :
    ∀ u ∈ enhAdditional srcs, absUrl u := by
  intro u hu
  rw [enhAdditional] at hu
  exact enhAdditional_aux srcs [] (by intro v hv; cases hv) u hu

theorem pwRecord_imageOk (e : PwElement) (r : PyVal) (h : pwRecord e = some r) :
    imageFieldsOk r := by
  rcases hE : e.raises
  · rw [pwRecord_eq e hE] at h
    injection h with h
    subst h
    constructor
    · simp only [getField]
      simp [dGet]
      rcases e.imgElem with _ | os
      · exact Or.inl rfl
      · rcases os with _ | s2
        · exact Or.inl rfl
        · exact imageValOk_fix s2
    · simp only [getField]
      simp [dGet]
      intro a ha
      by_cases hie : pwAdditional e.fotosFicha = []
      · rw [if_pos hie] at ha
        exact Or.inr ⟨a, rfl, pwAdditional_good _ a ha⟩
      · rw [if_neg hie] at ha
        exact Or.inr ⟨a, rfl, pwAdditional_good _ a ha⟩
  · rw [pwRecord, if_pos hE] at h
    cases h

theorem mem_mapSet : ∀ (m : List (String × EnhVal)) (k : String) (v : EnhVal)
    (kv : String × EnhVal), kv ∈ mapSet m k v → kv = (k, v) ∨ kv ∈ m := by
  intro m k v
  induction m with
  | nil =>
    intro kv h
    rw [mapSet] at h
    exact Or.inl (List.mem_singleton.mp h)
  | cons p rest ih =>
    intro kv h
    rcases p with ⟨k0, w⟩
    rw [mapSet] at h
    by_cases hk : k0 = k
    · rw [if_pos hk] at h
      rcases List.mem_cons.mp h with rfl | h2
      · exact Or.inl (by rw [hk])
      · exact Or.inr (List.mem_cons_of_mem _ h2)
    · rw [if_neg hk] at h
      rcases List.mem_cons.mp h with rfl | h2
      · exact Or.inr (List.mem_cons_self _ _)
      · rcases ih kv h2 with h3 | h3
        · exact Or.inl h3
        · exact Or.inr (List.mem_cons_of_mem _ h3)

theorem mapGet_mem : ∀ (m : List (String × EnhVal)) (k : String) (v : EnhVal),
    mapGet m k = some v → (k, v) ∈ m := by
  intro m k
  induction m with
  | nil =>
    intro v h
    rw [mapGet] at h
    cases h
  | cons p rest ih =>
    intro v h
    rcases p with ⟨k0, w⟩
    rw [mapGet] at h
    by_cases hk : k0 = k
    · rw [if_pos hk] at h
      injection h with h
      subst h
      subst hk
      exact List.mem_cons_self _ _
    · rw [if_neg hk] at h
      exact List.mem_cons_of_mem _ (ih v h)

theorem mapGet_eq_none : ∀ (m : List (String × EnhVal)) (k : String),
    (∀ kv ∈ m, kv.1 ≠ k) → mapGet m k = none := by
  intro m
  induction m with
  | nil => intro k h; rfl
  | cons p rest ih =>
    intro k h
    rcases p with ⟨k0, w⟩
    rw [mapGet, if_neg (h (k0, w) (List.mem_cons_self _ _))]
    exact ih k (fun kv hkv => h kv (List.mem_cons_of_mem _ hkv))

theorem mapGet_mapSet_self : ∀ (m : List (String × EnhVal)) (k : String) (v : EnhVal),
    mapGet (mapSet m k v) k = some v := by
  intro m
  induction m with
  | nil => intro k v; rw [mapSet, mapGet, if_pos rfl]
  | cons p rest ih =>
    intro k v
    rcases p with ⟨k0, w⟩
    rw [mapSet]
    by_cases hk : k0 = k
    · rw [if_pos hk, mapGet, if_pos hk]
    · rw [if_neg hk, mapGet, if_neg hk]
      exact ih k v
theorem enhProcessElement_good (m : List (String × EnhVal)) (e : EnhElement)
    (hm : ∀ kv ∈ m, EnhVal.good kv.2)
    (hk : ∀ kv ∈ m, kv.1 ≠ e.kid.getD "") :
    (∀ kv ∈ enhProcessElement m e, EnhVal.good kv.2) ∧
    (∀ kv ∈ enhProcessElement m e, kv.1 = e.kid.getD "" ∨ kv.1 ∈ m.map Prod.fst) := by
  rw [enhProcessElement]
  by_cases hre : e.raisesEarly = true
  · simp only [hre, if_true]
    exact ⟨hm, fun kv hkv => Or.inr (List.mem_map.mpr ⟨kv, hkv, rfl⟩)⟩
  · simp only [hre, Bool.false_eq_true, if_false]
    generalize hM1 : (match (match e.imgElem with
        | some (some s) => PyVal.vstr s
        | some none => PyVal.vnone
        | none => PyVal.vstr "") with
      | PyVal.vstr s =>
        if (decide (s ≠ "") && !containsSubstr s placeholderPath) = true then
          mapSet m (e.kid.getD "") (EnhVal.bare (fixImageUrlStr s))
        else m
      | x => m) = m1
    generalize hMF : (match (match e.imgElem with
        | some (some s) => PyVal.vstr s
        | some none => PyVal.vnone
        | none => PyVal.vstr "") with
      | PyVal.vstr s => fixImageUrlStr s
      | x => "") = mainFix
    generalize hAD : (if (enhAdditional e.fotosFicha).isEmpty = true
        then enhAdditional e.itemscopePhotos
        else enhAdditional e.fotosFicha) = adds
    have hshape : m1 = m ∨ ∃ s, (decide (s ≠ "") &&
        !containsSubstr s placeholderPath) = true ∧
        m1 = mapSet m (e.kid.getD "") (.bare (fixImageUrlStr s)) := by
      rw [← hM1]
      rcases e.imgElem with _ | os
      · left; rfl
      · rcases os with _ | s
        · left; rfl
        · by_cases hc : (decide (s ≠ "") && !containsSubstr s placeholderPath) = true
          · right
            refine ⟨s, hc, ?_⟩
            show (if (decide (s ≠ "") && !containsSubstr s placeholderPath) = true
                then mapSet m (e.kid.getD "") (EnhVal.bare (fixImageUrlStr s))
                else m)
              = mapSet m (e.kid.getD "") (EnhVal.bare (fixImageUrlStr s))
            rw [if_pos hc]
          · left
            show (if (decide (s ≠ "") && !containsSubstr s placeholderPath) = true
                then mapSet m (e.kid.getD "") (EnhVal.bare (fixImageUrlStr s))
                else m) = m
            rw [if_neg hc]
    have hmf : mainFix = "" ∨ absUrl mainFix := by
      rw [← hMF]
      rcases e.imgElem with _ | os
      · exact Or.inl rfl
      · rcases os with _ | s
        · exact Or.inl rfl
        · exact fixImageUrlStr_ok s
    have hadds : ∀ u ∈ adds, absUrl u := by
      rw [← hAD]
      intro u hu
      by_cases hie : (enhAdditional e.fotosFicha).isEmpty = true
      · rw [if_pos hie] at hu
        exact enhAdditional_good _ u hu
      · rw [if_neg hie] at hu
        exact enhAdditional_good _ u hu
    have hm1good : ∀ kv ∈ m1, EnhVal.good kv.2 := by
      rcases hshape with rfl | ⟨s, hc, rfl⟩
      · exact hm
      · intro kv hkv
        rcases mem_mapSet _ _ _ _ hkv with rfl | h2
        · have hs : s ≠ "" := by
            simp only [Bool.and_eq_true, decide_eq_true_eq] at hc
            exact hc.1
          exact Or.inr (fixImageUrlStr_abs s hs)
        · exact hm kv h2
    have hm1keys : ∀ kv ∈ m1, kv.1 = e.kid.getD "" ∨ kv.1 ∈ m.map Prod.fst := by
      rcases hshape with rfl | ⟨s, hc, rfl⟩
      · exact fun kv hkv => Or.inr (List.mem_map.mpr ⟨kv, hkv, rfl⟩)
      · intro kv hkv
        rcases mem_mapSet _ _ _ _ hkv with rfl | h2
        · exact Or.inl rfl
        · exact Or.inr (List.mem_map.mpr ⟨kv, h2, rfl⟩)
    have hm1get : ∀ prev, mapGet m1 (e.kid.getD "") = some prev →
        ∃ s0, prev = .bare s0 ∧ (s0 = "" ∨ absUrl s0) := by
      rcases hshape with rfl | ⟨s, hc, rfl⟩
      · intro prev hp
        rw [mapGet_eq_none _ _ hk] at hp
        cases hp
      · intro prev hp
        rw [mapGet_mapSet_self] at hp
        injection hp with hp
        have hs : s ≠ "" := by
          simp only [Bool.and_eq_true, decide_eq_true_eq] at hc
          exact hc.1
        exact ⟨_, hp.symm, Or.inr (fixImageUrlStr_abs s hs)⟩
    by_cases hrl : e.raisesLate = true
    · simp only [hrl, if_true]
      exact ⟨hm1good, hm1keys⟩
    · simp only [hrl, Bool.false_eq_true, if_false]
      by_cases hae : adds.isEmpty = true
      · simp only [hae, if_true]
        exact ⟨hm1good, hm1keys⟩
      · simp only [hae, Bool.false_eq_true, if_false]
        rcases hg : mapGet m1 (e.kid.getD "") with _ | prev <;> simp only [hg]
        · constructor
          · intro kv hkv
            rcases mem_mapSet _ _ _ _ hkv with rfl | h2
            · exact ⟨⟨mainFix, rfl, hmf⟩, hadds⟩
            · exact hm1good kv h2
          · intro kv hkv
            rcases mem_mapSet _ _ _ _ hkv with rfl | h2
            · exact Or.inl rfl
            · exact hm1keys kv h2
        · constructor
          · intro kv hkv
            rcases mem_mapSet _ _ _ _ hkv with rfl | h2
            · exact ⟨hm1get prev hg, hadds⟩
            · exact hm1good kv h2
          · intro kv hkv
            rcases mem_mapSet _ _ _ _ hkv with rfl | h2
            · exact Or.inl rfl
            · exact hm1keys kv h2

theorem buildImageMap_aux : ∀ (elems : List EnhElement) (m : List (String × EnhVal)),
    (enhKidList elems).Nodup →
    (∀ kv ∈ m, EnhVal.good kv.2) →
    (∀ kv ∈ m, kv.1 ∉ enhKidList elems) →
    ∀ kv ∈ elems.foldl enhProcessElement m, EnhVal.good kv.2 := by
  intro elems
  induction elems with
  | nil =>
    intro m _ hm _ kv hkv
    rw [List.foldl_nil] at hkv
    exact hm kv hkv
  | cons e rest ih =>
    intro m hnd hm hfresh kv hkv
    rw [List.foldl_cons] at hkv
    have hcons : enhKidList (e :: rest) = e.kid.getD "" :: enhKidList rest := rfl
    rw [hcons] at hnd
    rw [List.nodup_cons] at hnd
    have hkfresh : ∀ kv ∈ m, kv.1 ≠ e.kid.getD "" := by
      intro kv2 h2 hEq
      have h3 := hfresh kv2 h2
      rw [hcons] at h3
      exact h3 (hEq ▸ List.mem_cons_self _ _)
    obtain ⟨hgood, hkeys⟩ := enhProcessElement_good m e hm hkfresh
    refine ih _ hnd.2 hgood ?_ kv hkv
    intro kv2 h2
    rcases hkeys kv2 h2 with hEq | hIn
    · rw [hEq]
      exact hnd.1
    · obtain ⟨kv3, h3, hEq3⟩ := List.mem_map.mp hIn
      intro hmem
      apply hfresh kv3 h3
      rw [hcons]
      exact List.mem_cons_of_mem _ (hEq3 ▸ hmem)

theorem buildImageMap_good (elems : List EnhElement)
    (hnd : (enhKidList elems).Nodup) :
    ∀ kv ∈ buildImageMap elems, EnhVal.good kv.2 := by
  rw [buildImageMap]
  exact buildImageMap_aux elems [] hnd (by intro kv h; cases h) (by intro kv h; cases h)

theorem applyImageMap_ok (m : List (String × EnhVal))
    (hm : ∀ kv ∈ m, EnhVal.good kv.2) (bs : List PyVal)
    (hbs : ∀ b ∈ bs, imageFieldsOk b) :
    ∀ r ∈ applyImageMap m bs, imageFieldsOk r := by
  intro r hr
  rw [applyImageMap] at hr
  obtain ⟨b, hb, rfl⟩ := List.mem_map.mp hr
  rcases b with _ | _ | _ | _ | _ | d
  case vdict =>
    rcases hk2 : dGet d "kid" (.vstr "") with _ | b0 | n0 | k | l0 | d0
    · simpa [hk2] using hbs _ hb
    · simpa [hk2] using hbs _ hb
    · simpa [hk2] using hbs _ hb
    · simp only [hk2]
      rcases hg : mapGet m k with _ | v
      · simpa [hg] using hbs _ hb
      · rcases v with s | ⟨main, adds⟩
        · simp only [hg]
          have hgood := hm _ (mapGet_mem m k _ hg)
          show imageFieldsOk (.vdict (dSet d "image" (.vstr s)))
          constructor
          · have he : getField (.vdict (dSet d "image" (.vstr s))) "image"
                = .vstr s := by
              simp [getField, dGet_dSet]
            rw [he]
            rcases hgood with h0 | h0
            · exact Or.inl (by rw [h0]; rfl)
            · exact Or.inr ⟨s, rfl, h0⟩
          · have he : getField (.vdict (dSet d "image" (.vstr s))) "additional_images"
                = getField (.vdict d) "additional_images" := by
              simp [getField, dGet_dSet]
            rw [he]
            exact (hbs _ hb).2
        · simp only [hg]
          have hgood := hm _ (mapGet_mem m k _ hg)
          obtain ⟨⟨s0, rfl, hs0⟩, hadds⟩ := hgood
          show imageFieldsOk (.vdict (dSet (dSet d "image" (.vstr s0))
            "additional_images" (.vlist (adds.map PyVal.vstr))))
          constructor
          · have he : getField (.vdict (dSet (dSet d "image" (.vstr s0))
                "additional_images" (.vlist (adds.map PyVal.vstr)))) "image"
                = .vstr s0 := by
              simp [getField, dGet_dSet]
            rw [he]
            rcases hs0 with h0 | h0
            · exact Or.inl (by rw [h0]; rfl)
            · exact Or.inr ⟨s0, rfl, h0⟩
          · have he : getField (.vdict (dSet (dSet d "image" (.vstr s0))
                "additional_images" (.vlist (adds.map PyVal.vstr)))) "additional_images"
                = .vlist (adds.map PyVal.vstr) := by
              simp [getField, dGet_dSet]
            rw [he]
            intro v hv
            obtain ⟨u, hu, rfl⟩ := List.mem_map.mp hv
            exact Or.inr ⟨u, rfl, hadds u hu⟩
    · simpa [hk2] using hbs _ hb
    · simpa [hk2] using hbs _ hb
  all_goals
    rcases hg : mapGet m "" with _ | (s | ⟨main, adds⟩) <;>
      simpa [hg] using hbs _ hb

theorem enhance_imageOk (bs : List PyVal) (env : EnhEnv)
    (hnd : (enhKidList env.elements).Nodup)
    (hbs : ∀ b ∈ bs, imageFieldsOk b) :
    ∀ r ∈ enhanceWithPlaywrightImages bs env, imageFieldsOk r := by
  intro r hr
  rw [enhanceWithPlaywrightImages] at hr
  by_cases hbe : bs.isEmpty
  · simp [hbe] at hr
  · simp only [hbe, Bool.false_eq_true, if_false] at hr
    by_cases hl : env.launchOk
    · by_cases hg2 : env.gotoOk
      · simp only [hl, hg2] at hr
        exact applyImageMap_ok _ (buildImageMap_good _ hnd) bs hbs r hr
      · simp only [hl, hg2] at hr
        exact hbs r hr
    · simp only [hl] at hr
      exact hbs r hr

theorem inmoupHttpxExtract_imageOk (page : InmoupPage) :
    ∀ r ∈ inmoupHttpxExtract page, imageFieldsOk r := by
  intro r hr
  rw [inmoupHttpxExtract] at hr
  by_cases he : ((page.propertiesData.getD []).filterMap inmoupJsonRecord).isEmpty <;>
    simp only [he, if_true, if_false] at hr
  · obtain ⟨a, ha, rfl⟩ := List.mem_map.mp hr
    exact inmoupDomRecord_imageOk a
  · obtain ⟨prop, hp, hjr⟩ := List.mem_filterMap.mp hr
    exact inmoupJsonRecord_imageOk prop r hjr

/-- C4, counterexample.  The fix-up is not scheme-generic: only
`http://` and `https://` pass through, so an `ftp://` URL is treated as
site-relative and mangled by prefixing.  And the absolutisation
invariant fails at record level: when two rendered elements share the
`kid` "7", the enhancement pass nests the image map
(`image_map[kid] = {'main': image_map[kid], …}`) and the emitted
record's `image` is a dict — truthy, and not a URL string at all. -/
theorem c4_counterexample :
    fixImageUrlStr "ftp://example.com/a.jpg"
        = "https://inmoup.com.arftp://example.com/a.jpg" ∧
    ∃ bs, inmoupGetBuildings c4Env = .ok bs ∧ bs.length = 1 ∧
      getField (bs.headD .vnone) "image" =
        .vdict [("main", .vstr "https://inmoup.com.ar/a.jpg"),
          ("additional", .vlist [.vstr "https://inmoup.com.ar/f1.jpg"])] ∧
      truthy (getField (bs.headD .vnone) "image") = true ∧
      ∀ s, getField (bs.headD .vnone) "image" ≠ .vstr s := by
  refine ⟨rfl, (inmoupGetBuildings c4Env).toOption.getD [], rfl, rfl, rfl, rfl, ?_⟩
  intro s h
  exact PyVal.noConfusion h

/-- C4, amended: (1) the fix-up passes a path through unchanged exactly
when it is empty or starts with `http://` or `https://` (any other
scheme is prefixed with the site origin); (2) likewise for the
mendozaprop absolutisation of a non-empty main image; (3) under the
proviso that the rendered elements of the enhancement pass carry
pairwise-distinct `kid` attributes, every record emitted by the inmoup
pipeline has absolute (or falsy) `image` and absolute
`additional_images`; (4) every record emitted by the mendozaprop
pipeline does, unconditionally. -/
theorem c4_amended :
    (∀ s : String, fixImageUrlStr s = s ↔
      (s = "" ∨ pyStartsWith s "http://" = true ∨ pyStartsWith s "https://" = true)) ∧
    (∀ s : String, s ≠ "" →
      (mzAbsMain (.vstr s) = some (.vstr s) ↔
        (pyStartsWith s "http://" = true ∨ pyStartsWith s "https://" = true))) ∧
    (∀ (env : InmoupEnv) (bs : List PyVal),
      (enhKidList env.enh.elements).Nodup →
      inmoupGetBuildings env = .ok bs → ∀ r ∈ bs, imageFieldsOk r) ∧
    (∀ (menv : MzEnv) (bs : List PyVal),
      mzGetBuildings menv = .ok bs → ∀ r ∈ bs, imageFieldsOk r) := by
  refine ⟨fixImageUrlStr_id, mzAbsMain_id, ?_, ?_⟩
  · intro env bs hnd h r hr
    rw [inmoupGetBuildings] at h
    rcases hh : env.httpx with _ | page <;> simp only [hh] at h
    · rw [inmoupPlaywrightWrapped] at h
      by_cases hok : env.pw.launchOk && env.pw.gotoOk <;> simp [hok] at h
      subst h
      obtain ⟨e, he, hpe⟩ := List.mem_filterMap.mp hr
      exact pwRecord_imageOk e r hpe
    · rcases hmq : missingImagesQ (inmoupHttpxExtract page) with _ | mq <;>
        simp only [hmq] at h
      · rw [inmoupPlaywrightWrapped] at h
        by_cases hok : env.pw.launchOk && env.pw.gotoOk <;> simp [hok] at h
        subst h
        obtain ⟨e, he, hpe⟩ := List.mem_filterMap.mp hr
        exact pwRecord_imageOk e r hpe
      · by_cases hc : mq && !(inmoupHttpxExtract page).isEmpty <;>
          simp only [hc, if_true, if_false] at h
        · injection h with h
          subst h
          exact enhance_imageOk _ env.enh hnd
            (fun b hb => inmoupHttpxExtract_imageOk page b hb) r hr
        · injection h with h
          subst h
          exact inmoupHttpxExtract_imageOk page r hr
  · intro menv bs h r hr
    rw [mzGetBuildings] at h
    by_cases hf : (mzLoop menv.pages menv.retries 5 0 0).fatal <;>
      simp only [hf, if_true, if_false] at h
    · cases h
    · injection h with h
      subst h
      obtain ⟨p, st1, st2, hp⟩ := processAll_mem menv.geo _ _ r hr
      exact processProperty_imageOk menv.geo p st1 r st2 hp

/-- C4, witness: a duplicate-free enhancement run over the placeholder
page yields a record with absolute image URLs, and so does a one-item
mendozaprop run whose raw image path is site-relative. -/
theorem c4_witness :
    ((enhKidList c4WitEnv.enh.elements).Nodup ∧
      ∃ bs, inmoupGetBuildings c4WitEnv = .ok bs ∧
        imageFieldsOk (bs.headD .vnone)) ∧
    (∃ bs, mzGetBuildings c4MzEnv = .ok bs ∧ imageFieldsOk (bs.headD .vnone)) := by
  constructor
  · refine ⟨by decide, (inmoupGetBuildings c4WitEnv).toOption.getD [], rfl, ?_⟩
    exact c4_amended.2.2.1 c4WitEnv _ (by decide) rfl _ (List.mem_cons_self _ _)
  · refine ⟨(mzGetBuildings c4MzEnv).toOption.getD [], rfl, ?_⟩
    exact c4_amended.2.2.2 c4MzEnv _ rfl _ (List.mem_cons_self _ _)
